import Mathlib

/-!
Verification development for the BookWriter repository.

The cryptographic core lives in src/core/encryption.py (class EncryptionEngine)
and the document model in src/core/book.py (Book, Chapter, Character,
WorldBuilding, StoryNote).  Stateful Python methods become explicit functions;
fallible Python code (raising ValueError / TypeError) returns Except.

Third-party primitives (PBKDF2, AES-GCM, zlib, json.dumps, datetime.isoformat,
os.urandom, uuid4) are not code of this repository; each is modelled by an
idealized executable function carrying exactly the contract the library
guarantees (determinism, injectivity, inverse pairs, perfect authentication),
documented at its definition.  Randomness (salt, nonce, uuids) and the clock
are passed as explicit parameters.
-/

namespace BookWriter

/-- Python dynamic (JSON-like) values as they flow through the data model:
strings, ints, lists, dicts (association lists with string keys, unique keys
in genuine Python dicts), and datetime objects (modelled by a Nat instant). -/
inductive PyVal where
  | str : String → PyVal
  | int : Int → PyVal
  | list : List PyVal → PyVal
  | dict : List (String × PyVal) → PyVal
  | datetime : Nat → PyVal
deriving Repr

mutual

/-- Decidable equality of PyVal (written out by hand: the deriving handler
does not support this nested inductive). -/
def PyVal.decEq : (a b : PyVal) → Decidable (a = b)
  | .str a, .str b =>
    if h : a = b then isTrue (by rw [h]) else isFalse (fun hh => h (PyVal.str.inj hh))
  | .int a, .int b =>
    if h : a = b then isTrue (by rw [h]) else isFalse (fun hh => h (PyVal.int.inj hh))
  | .datetime a, .datetime b =>
    if h : a = b then isTrue (by rw [h]) else isFalse (fun hh => h (PyVal.datetime.inj hh))
  | .list a, .list b =>
    match PyVal.decEqList a b with
    | isTrue h => isTrue (by rw [h])
    | isFalse h => isFalse (fun hh => h (PyVal.list.inj hh))
  | .dict a, .dict b =>
    match PyVal.decEqObj a b with
    | isTrue h => isTrue (by rw [h])
    | isFalse h => isFalse (fun hh => h (PyVal.dict.inj hh))
  | .str _, .int _ => isFalse nofun
  | .str _, .list _ => isFalse nofun
  | .str _, .dict _ => isFalse nofun
  | .str _, .datetime _ => isFalse nofun
  | .int _, .str _ => isFalse nofun
  | .int _, .list _ => isFalse nofun
  | .int _, .dict _ => isFalse nofun
  | .int _, .datetime _ => isFalse nofun
  | .list _, .str _ => isFalse nofun
  | .list _, .int _ => isFalse nofun
  | .list _, .dict _ => isFalse nofun
  | .list _, .datetime _ => isFalse nofun
  | .dict _, .str _ => isFalse nofun
  | .dict _, .int _ => isFalse nofun
  | .dict _, .list _ => isFalse nofun
  | .dict _, .datetime _ => isFalse nofun
  | .datetime _, .str _ => isFalse nofun
  | .datetime _, .int _ => isFalse nofun
  | .datetime _, .list _ => isFalse nofun
  | .datetime _, .dict _ => isFalse nofun

/-- Decidable equality of lists of PyVal. -/
def PyVal.decEqList : (a b : List PyVal) → Decidable (a = b)
  | [], [] => isTrue rfl
  | [], _ :: _ => isFalse nofun
  | _ :: _, [] => isFalse nofun
  | x :: xs, y :: ys =>
    match PyVal.decEq x y with
    | isFalse h => isFalse (fun hh => h (List.cons.inj hh).1)
    | isTrue h1 =>
      match PyVal.decEqList xs ys with
      | isTrue h2 => isTrue (by rw [h1, h2])
      | isFalse h2 => isFalse (fun hh => h2 (List.cons.inj hh).2)

/-- Decidable equality of dict entry lists. -/
def PyVal.decEqObj : (a b : List (String × PyVal)) → Decidable (a = b)
  | [], [] => isTrue rfl
  | [], _ :: _ => isFalse nofun
  | _ :: _, [] => isFalse nofun
  | (k1, v1) :: xs, (k2, v2) :: ys =>
    if hk : k1 = k2 then
      match PyVal.decEq v1 v2 with
      | isFalse h => isFalse (fun hh => h (congrArg Prod.snd (List.cons.inj hh).1))
      | isTrue h1 =>
        match PyVal.decEqObj xs ys with
        | isTrue h2 => isTrue (by rw [hk, h1, h2])
        | isFalse h2 => isFalse (fun hh => h2 (List.cons.inj hh).2)
    else isFalse (fun hh => hk (congrArg Prod.fst (List.cons.inj hh).1))

end

instance : DecidableEq PyVal := PyVal.decEq

/-- A Python dict with string keys, as an association list (insertion order). -/
abbrev JObj := List (String × PyVal)

/-- Python truthiness test (`if not book_data`): empty str/list/dict and the
int 0 are falsy; datetime objects are always truthy. -/
def PyVal.falsy : PyVal → Bool
  | .str s => s = ""
  | .int i => i = 0
  | .list l => l.isEmpty
  | .dict o => o.isEmpty
  | .datetime _ => false

mutual

/-- Whether a value is JSON-serializable: json.dumps raises TypeError on a
datetime object anywhere inside the value, and succeeds otherwise. -/
def jsonOK : PyVal → Bool
  | .str _ => true
  | .int _ => true
  | .datetime _ => false
  | .list xs => jsonOKList xs
  | .dict o => jsonOKObj o

/-- jsonOK over a list of values. -/
def jsonOKList : List PyVal → Bool
  | [] => true
  | x :: xs => jsonOK x && jsonOKList xs

/-- jsonOK over the entries of an object. -/
def jsonOKObj : List (String × PyVal) → Bool
  | [] => true
  | kv :: o => jsonOK kv.2 && jsonOKObj o

end

/-- Modelled: datetime.isoformat.  The stdlib renders an instant as a text
timestamp; the model keeps only the contract the code relies on — an injective
encoding of the instant into a string, with a computable parser. -/
def isoformat (t : Nat) : String := String.mk (List.replicate t 'D')

/-- Modelled: datetime.fromisoformat.  Partial inverse of isoformat; returns
none (the stdlib raises ValueError) on a string outside the timestamp
language. -/
def fromisoformat (s : String) : Option Nat :=
  if s.data.all (fun c => c = 'D') then some s.data.length else none

/-- Alphabet of the container file.  Header bytes are ordinary byte values;
the serialized JSON document travels as an opaque payload symbol (the model of
json.dumps below is the injection into this symbol); the AES-GCM
authentication tag is modelled ideally as a symbol determined by (key, nonce,
ciphertext), so that the tag check succeeds exactly when key, nonce and data
all match — the authenticity contract of the AEAD primitive. -/
inductive FByte where
  | byte : Nat → FByte
  | doc : PyVal → FByte
  | tag : List FByte → List FByte → List FByte → FByte
deriving Repr

mutual

/-- Decidable equality of FByte (by hand, as for PyVal). -/
def FByte.decEq : (a b : FByte) → Decidable (a = b)
  | .byte a, .byte b =>
    if h : a = b then isTrue (by rw [h]) else isFalse (fun hh => h (FByte.byte.inj hh))
  | .doc a, .doc b =>
    if h : a = b then isTrue (by rw [h]) else isFalse (fun hh => h (FByte.doc.inj hh))
  | .tag k1 n1 d1, .tag k2 n2 d2 =>
    match FByte.decEqList k1 k2 with
    | isFalse h => isFalse (fun hh => h (FByte.tag.inj hh).1)
    | isTrue hk =>
      match FByte.decEqList n1 n2 with
      | isFalse h => isFalse (fun hh => h (FByte.tag.inj hh).2.1)
      | isTrue hn =>
        match FByte.decEqList d1 d2 with
        | isTrue hd => isTrue (by rw [hk, hn, hd])
        | isFalse h => isFalse (fun hh => h (FByte.tag.inj hh).2.2)
  | .byte _, .doc _ => isFalse nofun
  | .byte _, .tag _ _ _ => isFalse nofun
  | .doc _, .byte _ => isFalse nofun
  | .doc _, .tag _ _ _ => isFalse nofun
  | .tag _ _ _, .byte _ => isFalse nofun
  | .tag _ _ _, .doc _ => isFalse nofun

/-- Decidable equality of lists of FByte. -/
def FByte.decEqList : (a b : List FByte) → Decidable (a = b)
  | [], [] => isTrue rfl
  | [], _ :: _ => isFalse nofun
  | _ :: _, [] => isFalse nofun
  | x :: xs, y :: ys =>
    match FByte.decEq x y with
    | isFalse h => isFalse (fun hh => h (List.cons.inj hh).1)
    | isTrue h1 =>
      match FByte.decEqList xs ys with
      | isTrue h2 => isTrue (by rw [h1, h2])
      | isFalse h2 => isFalse (fun hh => h2 (List.cons.inj hh).2)

end

instance : DecidableEq FByte := FByte.decEq

/-- Numeric value of a file symbol, for int.from_bytes; non-byte symbols
(which a well-formed header never contains) count as 0. -/
def FByte.val : FByte → Nat
  | .byte n => n
  | _ => 0

/-- EncryptionEngine.MAGIC_NUMBER = b"BOOK" (bytes 66, 79, 79, 75). -/
def MAGIC_NUMBER : List FByte := [.byte 66, .byte 79, .byte 79, .byte 75]

/-- EncryptionEngine.VERSION = 1. -/
def VERSION : Nat := 1

/-- Python int.to_bytes(k, 'little'). -/
def natToBytesLE : Nat → Nat → List FByte
  | 0, _ => []
  | k + 1, n => .byte (n % 256) :: natToBytesLE k (n / 256)

/-- Python int.from_bytes(bs, 'little'). -/
def fromBytesLE (l : List FByte) : Nat :=
  l.foldr (fun b acc => b.val + 256 * acc) 0

/-- Modelled: EncryptionEngine._derive_key (PBKDF2-HMAC-SHA256, 100000
iterations).  The contract the code relies on: a deterministic function of
(password, salt), injective in the password for a fixed salt (an ideal KDF;
the real one is collision-resistant).  Modelled as the password's UTF-8 code
points followed by the salt. -/
def derive_key (password : String) (salt : List FByte) : List FByte :=
  password.data.map (fun c => FByte.byte c.toNat) ++ salt

/-- Modelled: zlib.compress — an injective lossless transformation; the model
prefixes the length. -/
def zlibCompress (l : List FByte) : List FByte := .byte l.length :: l

/-- Modelled: zlib.decompress — partial inverse of zlibCompress; none stands
for zlib.error on data that is not a valid compression stream. -/
def zlibDecompress : List FByte → Option (List FByte)
  | .byte n :: rest => if rest.length = n then some rest else none
  | _ => none

/-- Python exceptions observed by the code under test: ValueError carries the
message the source raises it with; TypeError and AttributeError arise from
stdlib calls (json.dumps on a datetime, keyword mismatch in cls(**data),
attribute access on a wrong-typed value). -/
inductive PyErr where
  | valueError : String → PyErr
  | typeError : PyErr
  | attributeError : PyErr
deriving DecidableEq, Repr

/-- Modelled: json.dumps followed by str.encode('utf-8') — an injective
serialization of a JSON-serializable value into payload bytes; raises
TypeError (Except.error) on a datetime anywhere inside the value, exactly as
json.dumps does. -/
def jsonDumps (v : PyVal) : Except PyErr (List FByte) :=
  if jsonOK v then .ok [.doc v] else .error .typeError

/-- Modelled: utf-8 decode ∘ json.loads — partial inverse of jsonDumps; none
stands for json.JSONDecodeError on bytes that are not a serialized value. -/
def jsonLoads : List FByte → Option PyVal
  | [.doc v] => some v
  | _ => none

/-- Modelled: AESGCM(key).encrypt(nonce, data, None) — the AEAD output is the
ciphertext body (identity on the data: confidentiality is not observed by any
claim) with the 16-byte authentication tag appended; the tag is the ideal MAC
symbol over (key, nonce, data). -/
def aesgcmEncrypt (key nonce data : List FByte) : List FByte :=
  data ++ List.replicate 16 (FByte.tag key nonce data)

/-- Modelled: AESGCM(key).decrypt(nonce, ct, None) — splits off the 16-byte
tag and checks it against the recomputed ideal MAC; none stands for
cryptography.exceptions.InvalidTag (also raised when ct is shorter than a
tag). -/
def aesgcmDecrypt (key nonce ct : List FByte) : Option (List FByte) :=
  if ct.length < 16 then none
  else if ct.drop (ct.length - 16) =
      List.replicate 16 (FByte.tag key nonce (ct.take (ct.length - 16)))
  then some (ct.take (ct.length - 16)) else none

/-- EncryptionEngine.encrypt_book_data (src/core/encryption.py lines 50-93).
salt and iv are the os.urandom(16) / os.urandom(12) draws, passed explicitly;
book_data is annotated Dict in the source but at runtime receives any value
(change_password feeds it the json.loads result), so the model takes PyVal
and uses Python truthiness for the emptiness guard. -/
def encrypt_book_data (salt iv : List FByte) (book_data : PyVal)
    (password : String) : Except PyErr (List FByte) :=
  if password = "" then .error (.valueError "Password cannot be empty")
  else if book_data.falsy then .error (.valueError "Book data cannot be empty")
  else
    match jsonDumps book_data with
    | .error e => .error e
    | .ok jsonBytes =>
      .ok (MAGIC_NUMBER ++ natToBytesLE 4 VERSION ++ salt ++ iv ++
        aesgcmEncrypt (derive_key password salt) iv (zlibCompress jsonBytes))

/-- EncryptionEngine.decrypt_book_data (src/core/encryption.py lines 95-142):
size check (< 32), magic check, version check, then slices salt (8:24),
iv (24:36), ciphertext (36:), derives the key and decrypts; InvalidTag maps
to the ambiguous "Invalid password or corrupted file" ValueError, and
zlib/json failures map to the "File corruption detected" ValueError. -/
def decrypt_book_data (file_data : List FByte) (password : String) :
    Except PyErr PyVal :=
  if file_data.length < 32 then
    .error (.valueError "Invalid file format: file too small")
  else if file_data.take 4 ≠ MAGIC_NUMBER then
    .error (.valueError "Invalid file format: wrong magic number")
  else if fromBytesLE ((file_data.drop 4).take 4) ≠ VERSION then
    .error (.valueError
      ("Unsupported file version: " ++
        toString (fromBytesLE ((file_data.drop 4).take 4))))
  else
    let salt := (file_data.drop 8).take 16
    let iv := (file_data.drop 24).take 12
    let encrypted := file_data.drop 36
    match aesgcmDecrypt (derive_key password salt) iv encrypted with
    | none => .error (.valueError "Invalid password or corrupted file")
    | some compressed =>
      match zlibDecompress compressed with
      | none => .error (.valueError "File corruption detected: bad data")
      | some jsonBytes =>
        match jsonLoads jsonBytes with
        | none => .error (.valueError "File corruption detected: bad data")
        | some v => .ok v

/-- EncryptionEngine.change_password (src/core/encryption.py lines 144-166):
reject an empty new password, decrypt with the old password, re-encrypt with
the new one (salt and iv are the fresh os.urandom draws of the inner
encrypt_book_data call). -/
def change_password (salt iv : List FByte) (file_data : List FByte)
    (old_password new_password : String) : Except PyErr (List FByte) :=
  if new_password = "" then .error (.valueError "New password cannot be empty")
  else
    match decrypt_book_data file_data old_password with
    | .error e => .error e
    | .ok book_data => encrypt_book_data salt iv book_data new_password

/-- EncryptionEngine.verify_password (src/core/encryption.py lines 168-183):
true exactly when decryption succeeds (every failure of decrypt_book_data in
the model is a caught ValueError). -/
def verify_password (file_data : List FByte) (password : String) : Bool :=
  match decrypt_book_data file_data password with
  | .ok _ => true
  | .error _ => false

/-! Document model, src/core/book.py.  Fields hold Python dynamic values:
the dataclass annotations state the intended types, but from_dict assigns
whatever the parsed JSON supplies, so the embedding types every field PyVal.
The clock (datetime.now) and uuid4 draws are explicit parameters. -/

/-- Python dict lookup d.get(k) over insertion-ordered entries (genuine dicts
have unique keys; the model reads the first occurrence). -/
def dictGet (o : JObj) (k : String) : Option PyVal :=
  match o with
  | [] => none
  | (k', v) :: rest => if k' = k then some v else dictGet rest k

/-- Python d.get(k, default). -/
def dictGetD (o : JObj) (k : String) (d : PyVal) : PyVal :=
  (dictGet o k).getD d

/-- Python dict assignment d[k] = v: overwrite in place if the key exists
(keeping its position), else append. -/
def dictSet (o : JObj) (k : String) (v : PyVal) : JObj :=
  match o with
  | [] => [(k, v)]
  | (k', v') :: rest =>
    if k' = k then (k, v) :: rest else (k', v') :: dictSet rest k v

/-- Python iteration (for x in v): lists yield elements, strings yield their
one-character substrings, dicts yield their keys; ints and datetimes are not
iterable (TypeError). -/
def pyIter : PyVal → Except PyErr (List PyVal)
  | .list l => .ok l
  | .str s => .ok (s.data.map (fun c => .str (String.mk [c])))
  | .dict o => .ok (o.map (fun kv => PyVal.str kv.1))
  | _ => .error .typeError

/-- Shared from_dict preamble of the four dataclasses: if the key is present
and holds a string, replace it by the parsed datetime (ValueError on a
malformed timestamp); a present non-string value is left untouched. -/
def convertDateField (o : JObj) (k : String) : Except PyErr JObj :=
  match dictGet o k with
  | some (.str s) =>
    match fromisoformat s with
    | some t => .ok (dictSet o k (.datetime t))
    | none => .error (.valueError "Invalid isoformat string")
  | _ => .ok o

/-- Python self.created.isoformat(): AttributeError unless the value is an
actual datetime. -/
def isoformatV : PyVal → Except PyErr String
  | .datetime t => .ok (isoformat t)
  | _ => .error .attributeError

/-- Chapter dataclass (src/core/book.py lines 97-176). -/
structure Chapter where
  id : PyVal
  title : PyVal
  content : PyVal
  order : PyVal
  word_count : PyVal
  created : PyVal
  modified : PyVal
deriving Repr, DecidableEq

/-- Keyword parameters accepted by Chapter(**data). -/
def chapterFields : List String :=
  ["id", "title", "content", "order", "word_count", "created", "modified"]

/-- Chapter.to_dict: asdict in field order, with created/modified rendered by
isoformat (AttributeError if they are not datetimes). -/
def Chapter.to_dict (c : Chapter) : Except PyErr JObj := do
  let tc ← isoformatV c.created
  let tm ← isoformatV c.modified
  return [("id", c.id), ("title", c.title), ("content", c.content),
    ("order", c.order), ("word_count", c.word_count),
    ("created", .str tc), ("modified", .str tm)]

/-- Chapter.from_dict: parse created/modified when they are strings, then
cls(**data) — a key outside the dataclass fields raises TypeError, a missing
field takes its declared default (fresh uuid for id, empty/zero values,
the current instant for the timestamps); calling it on a non-dict raises
TypeError (argument after ** must be a mapping). -/
def Chapter.from_dict (now : Nat) (fresh : String) (v : PyVal) :
    Except PyErr Chapter :=
  match v with
  | .dict o => do
    let o ← convertDateField o "created"
    let o ← convertDateField o "modified"
    if o.all (fun kv => chapterFields.contains kv.1) then
      return { id := dictGetD o "id" (.str fresh),
               title := dictGetD o "title" (.str ""),
               content := dictGetD o "content" (.str ""),
               order := dictGetD o "order" (.int 0),
               word_count := dictGetD o "word_count" (.int 0),
               created := dictGetD o "created" (.datetime now),
               modified := dictGetD o "modified" (.datetime now) }
    else .error .typeError
  | _ => .error .typeError

/-- Character dataclass (src/core/book.py lines 39-65). -/
structure Character where
  id : PyVal
  name : PyVal
  description : PyVal
  background : PyVal
  attributes : PyVal
  image_path : PyVal
  created : PyVal
  modified : PyVal
deriving Repr, DecidableEq

/-- Keyword parameters accepted by Character(**data). -/
def characterFields : List String :=
  ["id", "name", "description", "background", "attributes", "image_path",
   "created", "modified"]

/-- Character.to_dict. -/
def Character.to_dict (c : Character) : Except PyErr JObj := do
  let tc ← isoformatV c.created
  let tm ← isoformatV c.modified
  return [("id", c.id), ("name", c.name), ("description", c.description),
    ("background", c.background), ("attributes", c.attributes),
    ("image_path", c.image_path), ("created", .str tc), ("modified", .str tm)]

/-- Character.from_dict (same shape as Chapter.from_dict). -/
def Character.from_dict (now : Nat) (fresh : String) (v : PyVal) :
    Except PyErr Character :=
  match v with
  | .dict o => do
    let o ← convertDateField o "created"
    let o ← convertDateField o "modified"
    if o.all (fun kv => characterFields.contains kv.1) then
      return { id := dictGetD o "id" (.str fresh),
               name := dictGetD o "name" (.str ""),
               description := dictGetD o "description" (.str ""),
               background := dictGetD o "background" (.str ""),
               attributes := dictGetD o "attributes" (.dict []),
               image_path := dictGetD o "image_path" (.str ""),
               created := dictGetD o "created" (.datetime now),
               modified := dictGetD o "modified" (.datetime now) }
    else .error .typeError
  | _ => .error .typeError

/-- WorldBuilding dataclass (src/core/book.py lines 68-94). -/
structure WorldBuilding where
  id : PyVal
  name : PyVal
  description : PyVal
  locations : PyVal
  rules : PyVal
  history : PyVal
  created : PyVal
  modified : PyVal
deriving Repr, DecidableEq

/-- Keyword parameters accepted by WorldBuilding(**data). -/
def worldBuildingFields : List String :=
  ["id", "name", "description", "locations", "rules", "history",
   "created", "modified"]

/-- WorldBuilding.to_dict. -/
def WorldBuilding.to_dict (w : WorldBuilding) : Except PyErr JObj := do
  let tc ← isoformatV w.created
  let tm ← isoformatV w.modified
  return [("id", w.id), ("name", w.name), ("description", w.description),
    ("locations", w.locations), ("rules", w.rules), ("history", w.history),
    ("created", .str tc), ("modified", .str tm)]

/-- WorldBuilding.from_dict (same shape as Chapter.from_dict). -/
def WorldBuilding.from_dict (now : Nat) (fresh : String) (v : PyVal) :
    Except PyErr WorldBuilding :=
  match v with
  | .dict o => do
    let o ← convertDateField o "created"
    let o ← convertDateField o "modified"
    if o.all (fun kv => worldBuildingFields.contains kv.1) then
      return { id := dictGetD o "id" (.str fresh),
               name := dictGetD o "name" (.str ""),
               description := dictGetD o "description" (.str ""),
               locations := dictGetD o "locations" (.dict []),
               rules := dictGetD o "rules" (.dict []),
               history := dictGetD o "history" (.str ""),
               created := dictGetD o "created" (.datetime now),
               modified := dictGetD o "modified" (.datetime now) }
    else .error .typeError
  | _ => .error .typeError

/-- StoryNote dataclass (src/core/book.py lines 13-36). -/
structure StoryNote where
  id : PyVal
  title : PyVal
  content : PyVal
  created : PyVal
  modified : PyVal
deriving Repr, DecidableEq

/-- Keyword parameters accepted by StoryNote(**data). -/
def storyNoteFields : List String :=
  ["id", "title", "content", "created", "modified"]

/-- StoryNote.to_dict. -/
def StoryNote.to_dict (n : StoryNote) : Except PyErr JObj := do
  let tc ← isoformatV n.created
  let tm ← isoformatV n.modified
  return [("id", n.id), ("title", n.title), ("content", n.content),
    ("created", .str tc), ("modified", .str tm)]

/-- StoryNote.from_dict (same shape as Chapter.from_dict). -/
def StoryNote.from_dict (now : Nat) (fresh : String) (v : PyVal) :
    Except PyErr StoryNote :=
  match v with
  | .dict o => do
    let o ← convertDateField o "created"
    let o ← convertDateField o "modified"
    if o.all (fun kv => storyNoteFields.contains kv.1) then
      return { id := dictGetD o "id" (.str fresh),
               title := dictGetD o "title" (.str ""),
               content := dictGetD o "content" (.str ""),
               created := dictGetD o "created" (.datetime now),
               modified := dictGetD o "modified" (.datetime now) }
    else .error .typeError
  | _ => .error .typeError

/-- Book (src/core/book.py lines 179-353), restricted to the document fields
that to_dict serializes; file_path, is_encrypted and the engine instance are
transient session attributes outside the document data. -/
structure Book where
  id : PyVal
  title : PyVal
  author : PyVal
  genre : PyVal
  created : PyVal
  modified : PyVal
  chapters : List Chapter
  characters : List Character
  world_building : List WorldBuilding
  story_notes : List StoryNote
  story_background : PyVal
  plot_outline : PyVal
  research_notes : PyVal
  timeline : PyVal
  metadata : PyVal
deriving Repr, DecidableEq

/-- Python list comprehension [f(x) for x in xs] over fallible f: elementwise
left to right, first exception wins. -/
def mapME (f : α → Except PyErr β) : List α → Except PyErr (List β)
  | [] => .ok []
  | x :: xs => do
    let y ← f x
    let ys ← mapME f xs
    return y :: ys

/-- Book.to_dict (lines 299-317): the serialized dictionary, in the literal's
key order, with timestamps via isoformat and nested objects via their
to_dict. -/
def Book.to_dict (b : Book) : Except PyErr JObj := do
  let tc ← isoformatV b.created
  let tm ← isoformatV b.modified
  let chs ← mapME Chapter.to_dict b.chapters
  let cas ← mapME Character.to_dict b.characters
  let wbs ← mapME WorldBuilding.to_dict b.world_building
  let sns ← mapME StoryNote.to_dict b.story_notes
  return [("id", b.id), ("title", b.title), ("author", b.author),
    ("genre", b.genre), ("created", .str tc), ("modified", .str tm),
    ("chapters", .list (chs.map PyVal.dict)),
    ("characters", .list (cas.map PyVal.dict)),
    ("world_building", .list (wbs.map PyVal.dict)),
    ("story_notes", .list (sns.map PyVal.dict)),
    ("story_background", b.story_background),
    ("plot_outline", b.plot_outline),
    ("research_notes", b.research_notes),
    ("timeline", b.timeline),
    ("metadata", b.metadata)]

/-- Book.from_dict helper for book.created / book.modified: absent keeps the
constructor default (the current instant); present must parse with
datetime.fromisoformat — TypeError on a non-string, ValueError on a malformed
timestamp (Book.from_dict, unlike the dataclasses, has no isinstance
guard). -/
def bookDateField (o : JObj) (k : String) (now : Nat) : Except PyErr PyVal :=
  match dictGet o k with
  | none => .ok (.datetime now)
  | some (.str s) =>
    match fromisoformat s with
    | some t => .ok (.datetime t)
    | none => .error (.valueError "Invalid isoformat string")
  | some _ => .error .typeError

/-- Book.from_dict helper for the four nested-object lists: data.get(k, [])
then Python iteration over the value. -/
def bookListField (o : JObj) (k : String) : Except PyErr (List PyVal) :=
  match dictGet o k with
  | none => .ok []
  | some v => pyIter v

/-- Book.from_dict (lines 319-353): every field is read with data.get and a
default, so unknown top-level keys are ignored and missing top-level keys
default; nested objects go through the dataclass from_dict functions; calling
it on a non-dict value raises AttributeError (no .get method). -/
def Book.from_dict (now : Nat) (fresh : String) (v : PyVal) :
    Except PyErr Book :=
  match v with
  | .dict o => do
    let created ← bookDateField o "created" now
    let modified ← bookDateField o "modified" now
    let chVals ← bookListField o "chapters"
    let chs ← mapME (Chapter.from_dict now fresh) chVals
    let caVals ← bookListField o "characters"
    let cas ← mapME (Character.from_dict now fresh) caVals
    let wbVals ← bookListField o "world_building"
    let wbs ← mapME (WorldBuilding.from_dict now fresh) wbVals
    let snVals ← bookListField o "story_notes"
    let sns ← mapME (StoryNote.from_dict now fresh) snVals
    return { id := dictGetD o "id" (.str fresh),
             title := dictGetD o "title" (.str ""),
             author := dictGetD o "author" (.str ""),
             genre := dictGetD o "genre" (.str ""),
             created := created,
             modified := modified,
             chapters := chs,
             characters := cas,
             world_building := wbs,
             story_notes := sns,
             story_background := dictGetD o "story_background" (.str ""),
             plot_outline := dictGetD o "plot_outline" (.str ""),
             research_notes := dictGetD o "research_notes" (.str ""),
             timeline := dictGetD o "timeline" (.str ""),
             metadata := dictGetD o "metadata" (.dict []) }
  | _ => .error .attributeError

/-- Book.add_chapter (lines 217-227): a fresh Chapter whose order is the
current list length, word count refreshed from the content (wcount models
update_word_count's markdown-stripping character classification, whose exact
value no claim depends on), appended to the list; modified is stamped. -/
def Book.add_chapter (now : Nat) (fresh : String) (wcount : String → Nat)
    (b : Book) (title content : String) : Book × Chapter :=
  let chapter : Chapter :=
    { id := .str fresh, title := .str title, content := .str content,
      order := .int b.chapters.length,
      word_count := .int (wcount content),
      created := .datetime now, modified := .datetime now }
  ({ b with chapters := b.chapters ++ [chapter], modified := .datetime now },
   chapter)

/-- Renumbering loop of Book.remove_chapter: the chapters after the deleted
position get order = their new index, counting from k. -/
def renumberFrom (k : Nat) : List Chapter → List Chapter
  | [] => []
  | c :: cs => { c with order := .int k } :: renumberFrom (k + 1) cs

/-- Scan of Book.remove_chapter: delete the first chapter whose id equals the
requested id (Python == between a str and a non-str is False) and renumber
the suffix from the deleted position; none when no chapter matches. -/
def removeAndRenumber (cid : String) (k : Nat) :
    List Chapter → Option (List Chapter)
  | [] => none
  | c :: cs =>
    if c.id = PyVal.str cid then some (renumberFrom k cs)
    else
      match removeAndRenumber cid (k + 1) cs with
      | none => none
      | some cs' => some (c :: cs')

/-- Book.remove_chapter (lines 229-239): returns the updated book and the
reported success flag. -/
def Book.remove_chapter (now : Nat) (b : Book) (cid : String) : Book × Bool :=
  match removeAndRenumber cid 0 b.chapters with
  | none => (b, false)
  | some cs => ({ b with chapters := cs, modified := .datetime now }, true)

/-- File bytes produced by a successful encrypt_book_data call. -/
def encFile (salt iv : List FByte) (v : PyVal) (p : String) : List FByte :=
  MAGIC_NUMBER ++ natToBytesLE 4 VERSION ++ salt ++ iv ++
    aesgcmEncrypt (derive_key p salt) iv (zlibCompress [.doc v])

/-! Validity predicates for documents as the application produces them, and
concrete sample data. -/

/-- Whether a dynamic value is an actual datetime object. -/
def isDatetime : PyVal → Bool
  | .datetime _ => true
  | _ => false

/-- A chapter as every code path of the application produces it: datetime
timestamps, JSON-serializable remaining fields. -/
def ValidChapter (c : Chapter) : Prop :=
  isDatetime c.created = true ∧ isDatetime c.modified = true ∧
  jsonOK c.id = true ∧ jsonOK c.title = true ∧ jsonOK c.content = true ∧
  jsonOK c.order = true ∧ jsonOK c.word_count = true

instance (c : Chapter) : Decidable (ValidChapter c) := by
  unfold ValidChapter; infer_instance

/-- A character with datetime timestamps and JSON-serializable fields. -/
def ValidCharacter (c : Character) : Prop :=
  isDatetime c.created = true ∧ isDatetime c.modified = true ∧
  jsonOK c.id = true ∧ jsonOK c.name = true ∧ jsonOK c.description = true ∧
  jsonOK c.background = true ∧ jsonOK c.attributes = true ∧
  jsonOK c.image_path = true

instance (c : Character) : Decidable (ValidCharacter c) := by
  unfold ValidCharacter; infer_instance

/-- A world-building entry with datetime timestamps and JSON-serializable
fields. -/
def ValidWorldBuilding (w : WorldBuilding) : Prop :=
  isDatetime w.created = true ∧ isDatetime w.modified = true ∧
  jsonOK w.id = true ∧ jsonOK w.name = true ∧ jsonOK w.description = true ∧
  jsonOK w.locations = true ∧ jsonOK w.rules = true ∧ jsonOK w.history = true

instance (w : WorldBuilding) : Decidable (ValidWorldBuilding w) := by
  unfold ValidWorldBuilding; infer_instance

/-- A story note with datetime timestamps and JSON-serializable fields. -/
def ValidStoryNote (n : StoryNote) : Prop :=
  isDatetime n.created = true ∧ isDatetime n.modified = true ∧
  jsonOK n.id = true ∧ jsonOK n.title = true ∧ jsonOK n.content = true

instance (n : StoryNote) : Decidable (ValidStoryNote n) := by
  unfold ValidStoryNote; infer_instance

/-- A document as the application produces it: datetime timestamps, valid
nested objects, JSON-serializable scalar fields and metadata. -/
def ValidBook (b : Book) : Prop :=
  isDatetime b.created = true ∧ isDatetime b.modified = true ∧
  jsonOK b.id = true ∧ jsonOK b.title = true ∧ jsonOK b.author = true ∧
  jsonOK b.genre = true ∧ jsonOK b.story_background = true ∧
  jsonOK b.plot_outline = true ∧ jsonOK b.research_notes = true ∧
  jsonOK b.timeline = true ∧ jsonOK b.metadata = true ∧
  (∀ c ∈ b.chapters, ValidChapter c) ∧
  (∀ c ∈ b.characters, ValidCharacter c) ∧
  (∀ w ∈ b.world_building, ValidWorldBuilding w) ∧
  (∀ n ∈ b.story_notes, ValidStoryNote n)

instance (b : Book) : Decidable (ValidBook b) := by
  unfold ValidBook; infer_instance

/-- Sample valid document used to instantiate the round-trip claim. -/
def c1Book : Book :=
  { id := .str "b1", title := .str "My Book", author := .str "An Author",
    genre := .str "Fiction", created := .datetime 1, modified := .datetime 2,
    chapters := [{ id := .str "c1", title := .str "Chapter One",
                   content := .str "Hello World", order := .int 0,
                   word_count := .int 10, created := .datetime 1,
                   modified := .datetime 1 }],
    characters := [{ id := .str "p1", name := .str "Hero",
                     description := .str "", background := .str "",
                     attributes := .dict [("age", .str "30")],
                     image_path := .str "", created := .datetime 1,
                     modified := .datetime 1 }],
    world_building := [], story_notes := [],
    story_background := .str "", plot_outline := .str "",
    research_notes := .str "", timeline := .str "",
    metadata := .dict [("language", .str "en"), ("estimated_pages", .int 0)] }

/-- Concrete 32-symbol file with correct magic and version 2, for the C6
witness. -/
def c6File : List FByte :=
  [.byte 66, .byte 79, .byte 79, .byte 75, .byte 2, .byte 0, .byte 0,
   .byte 0] ++ List.replicate 24 (.byte 0)

/-! Well-formedness of from_dict inputs (claim C4). -/

/-- A present date field either is not a string (left raw by the dataclass
from_dict) or parses as a timestamp. -/
def dateFieldOK (o : JObj) (k : String) : Bool :=
  match dictGet o k with
  | some (.str s) => (fromisoformat s).isSome
  | _ => true

/-- Input a dataclass from_dict accepts: a dict whose keys all belong to the
dataclass fields, with parseable date strings. -/
def goodNested (fields : List String) : PyVal → Bool
  | .dict o =>
    o.all (fun kv => fields.contains kv.1) &&
      dateFieldOK o "created" && dateFieldOK o "modified"
  | _ => false

/-- Book-level date field: absent, or a parseable timestamp string
(Book.from_dict has no isinstance guard, so a present non-string raises). -/
def bookDateOK (o : JObj) (k : String) : Bool :=
  match dictGet o k with
  | none => true
  | some (.str s) => (fromisoformat s).isSome
  | some _ => false

/-- Book-level nested-object list: absent, or a list of acceptable nested
dicts. -/
def listFieldOK (o : JObj) (k : String) (fields : List String) : Bool :=
  match dictGet o k with
  | none => true
  | some (.list l) => l.all (goodNested fields)
  | some _ => false

/-- Input on which Book.from_dict runs to completion: well-formed date fields
and nested-object lists; all other keys (including unknown ones) and values
are unconstrained. -/
def GoodBookInput (o : JObj) : Bool :=
  bookDateOK o "created" && bookDateOK o "modified" &&
    listFieldOK o "chapters" chapterFields &&
    listFieldOK o "characters" characterFields &&
    listFieldOK o "world_building" worldBuildingFields &&
    listFieldOK o "story_notes" storyNoteFields

/-! Chapter-order invariant (claim C10). -/

/-- Every chapter's order field equals its index in the list. -/
def ChaptersOrdered (l : List Chapter) : Prop :=
  ∀ i (h : i < l.length), (l.get ⟨i, h⟩).order = PyVal.int i

instance (l : List Chapter) : Decidable (ChaptersOrdered l) := by
  unfold ChaptersOrdered
  infer_instance

/-- Recursive form of the order invariant, counting from k. -/
def orderedFrom (k : Nat) : List Chapter → Prop
  | [] => True
  | c :: cs => c.order = PyVal.int k ∧ orderedFrom (k + 1) cs

/-- Sample two-chapter document for the C10 witness. -/
def c10Book : Book :=
  { id := .str "b", title := .str "T", author := .str "A",
    genre := .str "G", created := .datetime 0, modified := .datetime 0,
    chapters := [{ id := .str "c0", title := .str "first",
                   content := .str "", order := .int 0,
                   word_count := .int 0, created := .datetime 0,
                   modified := .datetime 0 },
                 { id := .str "c1", title := .str "second",
                   content := .str "", order := .int 1,
                   word_count := .int 0, created := .datetime 0,
                   modified := .datetime 0 }],
    characters := [], world_building := [], story_notes := [],
    story_background := .str "", plot_outline := .str "",
    research_notes := .str "", timeline := .str "",
    metadata := .dict [] }

theorem fromisoformat_isoformat (t : Nat) : fromisoformat (isoformat t) = some t := by
  simp [fromisoformat, isoformat, List.all_eq_true]

/-! Container-layer lemmas. -/

theorem charToNat_injective : Function.Injective Char.toNat := by
  intro a b h
  cases a; cases b
  simp only [Char.toNat] at h
  congr 1
  exact UInt32.toNat.inj h

/-- The modelled KDF is injective in the password for a fixed salt. -/
theorem derive_key_injective (salt : List FByte) {p1 p2 : String}
    (h : derive_key p1 salt = derive_key p2 salt) : p1 = p2 := by
  unfold derive_key at h
  have h2 := List.append_cancel_right h
  have h3 : p1.data = p2.data := by
    refine List.map_injective_iff.2 ?_ h2
    intro a b hab
    exact charToNat_injective (FByte.byte.inj hab)
  exact String.ext h3

/-- AEAD round trip: decrypting with the key and nonce used to encrypt
recovers the plaintext. -/
theorem aesgcmDecrypt_encrypt (k n d : List FByte) :
    aesgcmDecrypt k n (aesgcmEncrypt k n d) = some d := by
  unfold aesgcmDecrypt aesgcmEncrypt
  simp only [List.length_append, List.length_replicate]
  rw [if_neg (by omega)]
  have h2 : d.length + 16 - 16 = d.length := by omega
  rw [h2, List.take_left, List.drop_left, if_pos rfl]

/-- AEAD authenticity: decrypting with a different key fails the tag check. -/
theorem aesgcmDecrypt_wrongKey (k k' n d : List FByte) (hne : k' ≠ k) :
    aesgcmDecrypt k' n (aesgcmEncrypt k n d) = none := by
  unfold aesgcmDecrypt aesgcmEncrypt
  simp only [List.length_append, List.length_replicate]
  rw [if_neg (by omega)]
  have h2 : d.length + 16 - 16 = d.length := by omega
  rw [h2, List.take_left, List.drop_left, if_neg]
  intro heq
  have hh := congrArg List.head? heq
  simp only [List.head?] at hh
  have ht : FByte.tag k n d = FByte.tag k' n d := by
    have h16 : (0 : Nat) < 16 := by omega
    rw [List.replicate, List.replicate] at hh
    exact Option.some.inj hh
  exact hne ((FByte.tag.inj ht).1.symm)

/-- AEAD authenticity in the data: a ciphertext body that differs from the
one the tag was computed over fails the tag check. -/
theorem aesgcmDecrypt_wrongData (k n d d' : List FByte)
    (hlen : d'.length = d.length) (hne : d' ≠ d) :
    aesgcmDecrypt k n (d' ++ List.replicate 16 (FByte.tag k n d)) = none := by
  unfold aesgcmDecrypt
  simp only [List.length_append, List.length_replicate]
  rw [if_neg (by omega)]
  have h2 : d'.length + 16 - 16 = d'.length := by omega
  rw [h2, List.take_left, List.drop_left, if_neg]
  intro heq
  have hh := congrArg List.head? heq
  rw [List.replicate, List.replicate] at hh
  simp only [List.head?] at hh
  exact hne ((FByte.tag.inj (Option.some.inj hh)).2.2.symm)

/-- zlib round trip in the model. -/
theorem zlibDecompress_compress (l : List FByte) :
    zlibDecompress (zlibCompress l) = some l := by
  simp [zlibDecompress, zlibCompress]

/-- Successful encryption: all three guards pass, so the result is the header
followed by the AEAD output. -/
theorem encrypt_book_data_eq (salt iv : List FByte) (v : PyVal) (p : String)
    (hp : p ≠ "") (hf : v.falsy = false) (hj : jsonOK v = true) :
    encrypt_book_data salt iv v p = .ok (encFile salt iv v p) := by
  unfold encrypt_book_data jsonDumps encFile
  rw [if_neg hp, if_neg (by simp [hf]), if_pos hj]

/-- Slicing facts for a container file with a well-sized header. -/
theorem header_slices (salt iv ct : List FByte)
    (hs : salt.length = 16) (hi : iv.length = 12) :
    (MAGIC_NUMBER ++ natToBytesLE 4 VERSION ++ salt ++ iv ++ ct).length
        = 36 + ct.length ∧
    (MAGIC_NUMBER ++ natToBytesLE 4 VERSION ++ salt ++ iv ++ ct).take 4
        = MAGIC_NUMBER ∧
    fromBytesLE
        (((MAGIC_NUMBER ++ natToBytesLE 4 VERSION ++ salt ++ iv ++ ct).drop 4).take 4)
        = VERSION ∧
    ((MAGIC_NUMBER ++ natToBytesLE 4 VERSION ++ salt ++ iv ++ ct).drop 8).take 16
        = salt ∧
    ((MAGIC_NUMBER ++ natToBytesLE 4 VERSION ++ salt ++ iv ++ ct).drop 24).take 12
        = iv ∧
    (MAGIC_NUMBER ++ natToBytesLE 4 VERSION ++ salt ++ iv ++ ct).drop 36 = ct := by
  have hM : MAGIC_NUMBER ++ natToBytesLE 4 VERSION ++ salt ++ iv ++ ct
      = FByte.byte 66 :: FByte.byte 79 :: FByte.byte 79 :: FByte.byte 75 ::
        FByte.byte 1 :: FByte.byte 0 :: FByte.byte 0 :: FByte.byte 0 ::
        (salt ++ (iv ++ ct)) := by
    simp [MAGIC_NUMBER, natToBytesLE, VERSION]
  rw [hM]
  refine ⟨?_, ?_, ?_, ?_, ?_, ?_⟩
  · simp [hs, hi]
    omega
  · simp [List.take_succ_cons, MAGIC_NUMBER]
  · simp only [List.drop_succ_cons, List.drop_zero, List.take_succ_cons,
      List.take_zero]
    rfl
  · simp only [List.drop_succ_cons, List.drop_zero]
    exact List.take_left' hs
  · simp only [List.drop_succ_cons, List.drop_zero]
    rw [show (16 : Nat) = salt.length from hs.symm, List.drop_left]
    exact List.take_left' hi
  · simp only [List.drop_succ_cons, List.drop_zero]
    rw [show (28 : Nat) = salt.length + 12 by omega, List.drop_append,
      List.drop_left' hi]

/-- Successful decryption of an encFile with the password that produced it. -/
theorem decrypt_encFile (salt iv : List FByte) (v : PyVal) (p : String)
    (hs : salt.length = 16) (hi : iv.length = 12) :
    decrypt_book_data (encFile salt iv v p) p = .ok v := by
  obtain ⟨hlen, h4, hver, hsalt, hiv, hct⟩ :=
    header_slices salt iv
      (aesgcmEncrypt (derive_key p salt) iv (zlibCompress [.doc v])) hs hi
  unfold decrypt_book_data encFile
  rw [if_neg (by rw [hlen]; omega), if_neg (by rw [h4]; exact fun h => h rfl),
    if_neg (by rw [hver]; exact fun h => h rfl), hsalt, hiv, hct]
  simp only [aesgcmDecrypt_encrypt, zlibDecompress_compress]
  rfl

/-- Decrypting an encFile with a different password hits the tag failure and
raises the ambiguous wrong-password-or-corrupt ValueError. -/
theorem decrypt_encFile_wrongPassword (salt iv : List FByte) (v : PyVal)
    (p p' : String) (hs : salt.length = 16) (hi : iv.length = 12)
    (hne : p' ≠ p) :
    decrypt_book_data (encFile salt iv v p) p'
      = .error (.valueError "Invalid password or corrupted file") := by
  obtain ⟨hlen, h4, hver, hsalt, hiv, hct⟩ :=
    header_slices salt iv
      (aesgcmEncrypt (derive_key p salt) iv (zlibCompress [.doc v])) hs hi
  unfold decrypt_book_data encFile
  rw [if_neg (by rw [hlen]; omega), if_neg (by rw [h4]; exact fun h => h rfl),
    if_neg (by rw [hver]; exact fun h => h rfl), hsalt, hiv, hct]
  have hwk : aesgcmDecrypt (derive_key p' salt) iv
      (aesgcmEncrypt (derive_key p salt) iv (zlibCompress [FByte.doc v]))
      = none :=
    aesgcmDecrypt_wrongKey _ _ _ _ (fun hk => hne (derive_key_injective salt hk))
  simp only [hwk]

theorem isDatetime_iff (v : PyVal) :
    isDatetime v = true ↔ ∃ t, v = PyVal.datetime t := by
  cases v <;> simp [isDatetime]

theorem chapter_roundtrip (now : Nat) (fresh : String) (c : Chapter)
    (h : ValidChapter c) :
    ∃ o, Chapter.to_dict c = .ok o ∧ jsonOK (.dict o) = true ∧
      Chapter.from_dict now fresh (.dict o) = .ok c := by
  obtain ⟨cid, ctitle, ccontent, corder, cwc, ccr, cmo⟩ := c
  simp only [ValidChapter] at h
  obtain ⟨hcd, hmd, hid, hti, hco, hor, hwc⟩ := h
  obtain ⟨t, ht⟩ := (isDatetime_iff _).1 hcd
  obtain ⟨u, hu⟩ := (isDatetime_iff _).1 hmd
  subst ht hu
  refine ⟨[("id", cid), ("title", ctitle), ("content", ccontent),
    ("order", corder), ("word_count", cwc),
    ("created", .str (isoformat t)), ("modified", .str (isoformat u))],
    rfl, ?_, ?_⟩
  · simp only [jsonOK, jsonOKObj] at hid hti hco hor hwc ⊢
    simp [hid, hti, hco, hor, hwc]
  · simp [Chapter.from_dict, convertDateField, dictGet, dictSet,
      fromisoformat_isoformat, chapterFields, dictGetD, Bind.bind, Except.bind,
      Pure.pure, Except.pure]

theorem character_roundtrip (now : Nat) (fresh : String) (c : Character)
    (h : ValidCharacter c) :
    ∃ o, Character.to_dict c = .ok o ∧ jsonOK (.dict o) = true ∧
      Character.from_dict now fresh (.dict o) = .ok c := by
  obtain ⟨cid, cname, cdesc, cback, cattr, cimg, ccr, cmo⟩ := c
  simp only [ValidCharacter] at h
  obtain ⟨hcd, hmd, hid, hna, hde, hba, hat, him⟩ := h
  obtain ⟨t, ht⟩ := (isDatetime_iff _).1 hcd
  obtain ⟨u, hu⟩ := (isDatetime_iff _).1 hmd
  subst ht hu
  refine ⟨[("id", cid), ("name", cname), ("description", cdesc),
    ("background", cback), ("attributes", cattr), ("image_path", cimg),
    ("created", .str (isoformat t)), ("modified", .str (isoformat u))],
    rfl, ?_, ?_⟩
  · simp only [jsonOK, jsonOKObj] at hid hna hde hba hat him ⊢
    simp [hid, hna, hde, hba, hat, him]
  · simp [Character.from_dict, convertDateField, dictGet, dictSet,
      fromisoformat_isoformat, characterFields, dictGetD, Bind.bind,
      Except.bind, Pure.pure, Except.pure]

theorem worldBuilding_roundtrip (now : Nat) (fresh : String)
    (w : WorldBuilding) (h : ValidWorldBuilding w) :
    ∃ o, WorldBuilding.to_dict w = .ok o ∧ jsonOK (.dict o) = true ∧
      WorldBuilding.from_dict now fresh (.dict o) = .ok w := by
  obtain ⟨wid, wname, wdesc, wloc, wrules, whist, wcr, wmo⟩ := w
  simp only [ValidWorldBuilding] at h
  obtain ⟨hcd, hmd, hid, hna, hde, hlo, hru, hhi⟩ := h
  obtain ⟨t, ht⟩ := (isDatetime_iff _).1 hcd
  obtain ⟨u, hu⟩ := (isDatetime_iff _).1 hmd
  subst ht hu
  refine ⟨[("id", wid), ("name", wname), ("description", wdesc),
    ("locations", wloc), ("rules", wrules), ("history", whist),
    ("created", .str (isoformat t)), ("modified", .str (isoformat u))],
    rfl, ?_, ?_⟩
  · simp only [jsonOK, jsonOKObj] at hid hna hde hlo hru hhi ⊢
    simp [hid, hna, hde, hlo, hru, hhi]
  · simp [WorldBuilding.from_dict, convertDateField, dictGet, dictSet,
      fromisoformat_isoformat, worldBuildingFields, dictGetD, Bind.bind,
      Except.bind, Pure.pure, Except.pure]

theorem storyNote_roundtrip (now : Nat) (fresh : String) (n : StoryNote)
    (h : ValidStoryNote n) :
    ∃ o, StoryNote.to_dict n = .ok o ∧ jsonOK (.dict o) = true ∧
      StoryNote.from_dict now fresh (.dict o) = .ok n := by
  obtain ⟨nid, ntitle, ncontent, ncr, nmo⟩ := n
  simp only [ValidStoryNote] at h
  obtain ⟨hcd, hmd, hid, hti, hco⟩ := h
  obtain ⟨t, ht⟩ := (isDatetime_iff _).1 hcd
  obtain ⟨u, hu⟩ := (isDatetime_iff _).1 hmd
  subst ht hu
  refine ⟨[("id", nid), ("title", ntitle), ("content", ncontent),
    ("created", .str (isoformat t)), ("modified", .str (isoformat u))],
    rfl, ?_, ?_⟩
  · simp only [jsonOK, jsonOKObj] at hid hti hco ⊢
    simp [hid, hti, hco]
  · simp [StoryNote.from_dict, convertDateField, dictGet, dictSet,
      fromisoformat_isoformat, storyNoteFields, dictGetD, Bind.bind,
      Except.bind, Pure.pure, Except.pure]

/-- List-level round trip for chapters. -/
theorem chapterList_roundtrip (now : Nat) (fresh : String) (l : List Chapter)
    (h : ∀ c ∈ l, ValidChapter c) :
    ∃ os : List JObj, mapME Chapter.to_dict l = .ok os ∧
      jsonOKList (os.map PyVal.dict) = true ∧
      mapME (Chapter.from_dict now fresh) (os.map PyVal.dict) = .ok l := by
  induction l with
  | nil => exact ⟨[], rfl, rfl, rfl⟩
  | cons c cs ih =>
    obtain ⟨o, h1, h2, h3⟩ := chapter_roundtrip now fresh c (h c (by simp))
    obtain ⟨os, g1, g2, g3⟩ := ih (fun x hx => h x (by simp [hx]))
    refine ⟨o :: os, ?_, ?_, ?_⟩
    · simp [mapME, h1, g1, Bind.bind, Except.bind, Pure.pure, Except.pure]
    · simp only [List.map_cons, jsonOKList, h2, g2, Bool.and_self]
    · simp [mapME, h3, g3, Bind.bind, Except.bind, Pure.pure, Except.pure]

/-- List-level round trip for characters. -/
theorem characterList_roundtrip (now : Nat) (fresh : String)
    (l : List Character) (h : ∀ c ∈ l, ValidCharacter c) :
    ∃ os : List JObj, mapME Character.to_dict l = .ok os ∧
      jsonOKList (os.map PyVal.dict) = true ∧
      mapME (Character.from_dict now fresh) (os.map PyVal.dict) = .ok l := by
  induction l with
  | nil => exact ⟨[], rfl, rfl, rfl⟩
  | cons c cs ih =>
    obtain ⟨o, h1, h2, h3⟩ := character_roundtrip now fresh c (h c (by simp))
    obtain ⟨os, g1, g2, g3⟩ := ih (fun x hx => h x (by simp [hx]))
    refine ⟨o :: os, ?_, ?_, ?_⟩
    · simp [mapME, h1, g1, Bind.bind, Except.bind, Pure.pure, Except.pure]
    · simp only [List.map_cons, jsonOKList, h2, g2, Bool.and_self]
    · simp [mapME, h3, g3, Bind.bind, Except.bind, Pure.pure, Except.pure]

/-- List-level round trip for world-building entries. -/
theorem worldBuildingList_roundtrip (now : Nat) (fresh : String)
    (l : List WorldBuilding) (h : ∀ w ∈ l, ValidWorldBuilding w) :
    ∃ os : List JObj, mapME WorldBuilding.to_dict l = .ok os ∧
      jsonOKList (os.map PyVal.dict) = true ∧
      mapME (WorldBuilding.from_dict now fresh) (os.map PyVal.dict) = .ok l := by
  induction l with
  | nil => exact ⟨[], rfl, rfl, rfl⟩
  | cons w ws ih =>
    obtain ⟨o, h1, h2, h3⟩ := worldBuilding_roundtrip now fresh w (h w (by simp))
    obtain ⟨os, g1, g2, g3⟩ := ih (fun x hx => h x (by simp [hx]))
    refine ⟨o :: os, ?_, ?_, ?_⟩
    · simp [mapME, h1, g1, Bind.bind, Except.bind, Pure.pure, Except.pure]
    · simp only [List.map_cons, jsonOKList, h2, g2, Bool.and_self]
    · simp [mapME, h3, g3, Bind.bind, Except.bind, Pure.pure, Except.pure]

/-- List-level round trip for story notes. -/
theorem storyNoteList_roundtrip (now : Nat) (fresh : String)
    (l : List StoryNote) (h : ∀ n ∈ l, ValidStoryNote n) :
    ∃ os : List JObj, mapME StoryNote.to_dict l = .ok os ∧
      jsonOKList (os.map PyVal.dict) = true ∧
      mapME (StoryNote.from_dict now fresh) (os.map PyVal.dict) = .ok l := by
  induction l with
  | nil => exact ⟨[], rfl, rfl, rfl⟩
  | cons n ns ih =>
    obtain ⟨o, h1, h2, h3⟩ := storyNote_roundtrip now fresh n (h n (by simp))
    obtain ⟨os, g1, g2, g3⟩ := ih (fun x hx => h x (by simp [hx]))
    refine ⟨o :: os, ?_, ?_, ?_⟩
    · simp [mapME, h1, g1, Bind.bind, Except.bind, Pure.pure, Except.pure]
    · simp only [List.map_cons, jsonOKList, h2, g2, Bool.and_self]
    · simp [mapME, h3, g3, Bind.bind, Except.bind, Pure.pure, Except.pure]

/-- Serializer round trip at the document level: to_dict succeeds on a valid
document, yields a JSON-serializable non-empty dict, and from_dict restores
the document field for field. -/
theorem book_roundtrip (now : Nat) (fresh : String) (b : Book)
    (h : ValidBook b) :
    ∃ o : JObj, Book.to_dict b = .ok o ∧ jsonOK (.dict o) = true ∧
      (PyVal.dict o).falsy = false ∧
      Book.from_dict now fresh (.dict o) = .ok b := by
  obtain ⟨bid, btitle, bauthor, bgenre, bcr, bmo, bchs, bcas, bwbs, bsns,
    bsb, bpo, brn, btl, bmeta⟩ := b
  simp only [ValidBook] at h
  obtain ⟨hcd, hmd, hid, hti, hau, hge, hsb, hpo, hrn, htl, hme,
    hch, hca, hwb, hsn⟩ := h
  obtain ⟨t, ht⟩ := (isDatetime_iff _).1 hcd
  obtain ⟨u, hu⟩ := (isDatetime_iff _).1 hmd
  subst ht hu
  obtain ⟨chs, hch1, hch2, hch3⟩ := chapterList_roundtrip now fresh bchs hch
  obtain ⟨cas, hca1, hca2, hca3⟩ := characterList_roundtrip now fresh bcas hca
  obtain ⟨wbs, hwb1, hwb2, hwb3⟩ := worldBuildingList_roundtrip now fresh bwbs hwb
  obtain ⟨sns, hsn1, hsn2, hsn3⟩ := storyNoteList_roundtrip now fresh bsns hsn
  refine ⟨[("id", bid), ("title", btitle), ("author", bauthor),
    ("genre", bgenre), ("created", .str (isoformat t)),
    ("modified", .str (isoformat u)),
    ("chapters", .list (chs.map PyVal.dict)),
    ("characters", .list (cas.map PyVal.dict)),
    ("world_building", .list (wbs.map PyVal.dict)),
    ("story_notes", .list (sns.map PyVal.dict)),
    ("story_background", bsb), ("plot_outline", bpo),
    ("research_notes", brn), ("timeline", btl), ("metadata", bmeta)],
    ?_, ?_, rfl, ?_⟩
  · simp [Book.to_dict, isoformatV, hch1, hca1, hwb1, hsn1,
      Bind.bind, Except.bind, Pure.pure, Except.pure]
  · simp [jsonOK, jsonOKObj, jsonOKList, hid, hti, hau, hge, hsb, hpo, hrn,
      htl, hme, hch2, hca2, hwb2, hsn2]
  · simp [Book.from_dict, bookDateField, bookListField, pyIter, dictGet,
      dictGetD, fromisoformat_isoformat, hch3, hca3, hwb3, hsn3,
      Bind.bind, Except.bind, Pure.pure, Except.pure]

/-- Inversion of a successful encrypt_book_data call: the guards passed and
the result is the header plus AEAD output. -/
theorem encrypt_ok_inv {salt iv : List FByte} {v : PyVal} {p : String}
    {fd : List FByte} (h : encrypt_book_data salt iv v p = .ok fd) :
    p ≠ "" ∧ v.falsy = false ∧ jsonOK v = true ∧ fd = encFile salt iv v p := by
  by_cases hp : p = ""
  · rw [encrypt_book_data.eq_def, if_pos hp] at h
    exact Except.noConfusion h
  by_cases hf : v.falsy = true
  · rw [encrypt_book_data.eq_def, if_neg hp, if_pos hf] at h
    exact Except.noConfusion h
  by_cases hj : jsonOK v = true
  · rw [encrypt_book_data.eq_def, if_neg hp, if_neg hf] at h
    rw [jsonDumps, if_pos hj] at h
    refine ⟨hp, Bool.not_eq_true _ ▸ hf, hj, ?_⟩
    exact (Except.ok.inj h).symm
  · rw [encrypt_book_data.eq_def, if_neg hp, if_neg hf] at h
    rw [jsonDumps, if_neg hj] at h
    exact Except.noConfusion h

/-- C1: for every valid document d and non-empty password p, encrypting the
serialized form of d (encrypt_book_data on Book.to_dict) and decrypting the
resulting file bytes with the same p yields the serialized dictionary back,
and deserializing it (Book.from_dict) restores a document field-for-field
equal to d.  salt and iv are the os.urandom draws (16 and 12 bytes). -/
theorem c1_encrypt_decrypt_roundtrip (b : Book) (p : String)
    (salt iv : List FByte) (now : Nat) (fresh : String)
    (hb : ValidBook b) (hp : p ≠ "")
    (hs : salt.length = 16) (hi : iv.length = 12) :
    ∃ (o : JObj) (fd : List FByte),
      Book.to_dict b = .ok o ∧
      encrypt_book_data salt iv (.dict o) p = .ok fd ∧
      decrypt_book_data fd p = .ok (.dict o) ∧
      Book.from_dict now fresh (.dict o) = .ok b := by
  obtain ⟨o, h1, h2, h3, h4⟩ := book_roundtrip now fresh b hb
  exact ⟨o, encFile salt iv (.dict o) p, h1,
    encrypt_book_data_eq salt iv (.dict o) p hp h3 h2,
    decrypt_encFile salt iv (.dict o) p hs hi, h4⟩

/-- C1 witness: the round trip evaluated on a concrete document, password and
random draws. -/
theorem c1_encrypt_decrypt_roundtrip_witness :
    ∃ (o : JObj) (fd : List FByte),
      Book.to_dict c1Book = .ok o ∧
      encrypt_book_data (List.replicate 16 (.byte 7))
        (List.replicate 12 (.byte 9)) (.dict o) "correct-horse" = .ok fd ∧
      decrypt_book_data fd "correct-horse" = .ok (.dict o) ∧
      Book.from_dict 5 "uuid-1" (.dict o) = .ok c1Book :=
  c1_encrypt_decrypt_roundtrip c1Book "correct-horse"
    (List.replicate 16 (.byte 7)) (List.replicate 12 (.byte 9)) 5 "uuid-1"
    (by decide) (by decide) (by decide) (by decide)

/-- C7: encrypt_book_data with an empty password raises the EmptyPassword
ValueError for every input, and change_password with an empty new password
raises its EmptyPassword ValueError for every file bytes and old password,
before any decryption of the original file is attempted. -/
theorem c7_empty_password_guard :
    (∀ (salt iv : List FByte) (v : PyVal),
      encrypt_book_data salt iv v ""
        = .error (.valueError "Password cannot be empty")) ∧
    (∀ (salt iv fd : List FByte) (old : String),
      change_password salt iv fd old ""
        = .error (.valueError "New password cannot be empty")) :=
  ⟨fun _ _ _ => rfl, fun _ _ _ _ => rfl⟩

/-- C8: encoding any JSON-serializable non-falsy data with a non-empty
password yields at least 52 symbols (36-symbol header plus a 16-symbol tag),
starting with the magic constant, with bytes 4-8 decoding little-endian to
1. -/
theorem c8_header_shape (v : PyVal) (p : String) (salt iv : List FByte)
    (hp : p ≠ "") (hf : v.falsy = false) (hj : jsonOK v = true)
    (hs : salt.length = 16) (hi : iv.length = 12) :
    ∃ fd, encrypt_book_data salt iv v p = .ok fd ∧ 52 ≤ fd.length ∧
      fd.take 4 = MAGIC_NUMBER ∧ fromBytesLE ((fd.drop 4).take 4) = 1 := by
  obtain ⟨hlen, h4, hver, -, -, -⟩ :=
    header_slices salt iv
      (aesgcmEncrypt (derive_key p salt) iv (zlibCompress [.doc v])) hs hi
  refine ⟨encFile salt iv v p, encrypt_book_data_eq salt iv v p hp hf hj,
    ?_, h4, hver⟩
  have hct : (aesgcmEncrypt (derive_key p salt) iv
      (zlibCompress [FByte.doc v])).length = 18 := by
    simp [aesgcmEncrypt, zlibCompress]
  unfold encFile
  rw [hlen, hct]
  omega

/-- C8 witness: the header shape at a concrete plaintext and password. -/
theorem c8_header_shape_witness :
    ∃ fd, encrypt_book_data (List.replicate 16 (.byte 1))
        (List.replicate 12 (.byte 2)) (.str "Hello World") "correct-horse"
        = .ok fd ∧
      52 ≤ fd.length ∧ fd.take 4 = MAGIC_NUMBER ∧
      fromBytesLE ((fd.drop 4).take 4) = 1 :=
  c8_header_shape (.str "Hello World") "correct-horse"
    (List.replicate 16 (.byte 1)) (List.replicate 12 (.byte 2))
    (by decide) (by decide) (by decide) (by decide) (by decide)

/-- C9: encrypt_book_data rejects an empty (falsy) book-data dictionary for
every password: with an empty password the EmptyPassword guard fires, with a
non-empty password the empty-data guard fires — encoding an empty document
always fails. -/
theorem c9_empty_dict_rejected (salt iv : List FByte) (p : String) :
    encrypt_book_data salt iv (.dict []) p
      = .error (.valueError
          (if p = "" then "Password cannot be empty"
           else "Book data cannot be empty")) := by
  by_cases hp : p = "" <;> simp [encrypt_book_data, hp, PyVal.falsy]

/-- C2: decrypting a file encrypted under p1 with a different password p2
fails the authentication tag and raises the ambiguous ValueError (never
returning plaintext); and corrupting any symbol of the ciphertext body of
that file yields the very same error value under the correct password — the
two causes are not distinguished. -/
theorem c2_wrong_password_rejected (v : PyVal) (p1 p2 : String)
    (salt iv fd : List FByte)
    (henc : encrypt_book_data salt iv v p1 = .ok fd)
    (hs : salt.length = 16) (hi : iv.length = 12) (hne : p2 ≠ p1) :
    decrypt_book_data fd p2
      = .error (.valueError "Invalid password or corrupted file") ∧
    ∀ (j : Nat) (w : FByte), 36 ≤ j → j + 16 < fd.length → fd.set j w ≠ fd →
      decrypt_book_data (fd.set j w) p1
        = .error (.valueError "Invalid password or corrupted file") := by
  obtain ⟨hp1, hf, hj, rfl⟩ := encrypt_ok_inv henc
  refine ⟨decrypt_encFile_wrongPassword salt iv v p1 p2 hs hi hne, ?_⟩
  intro j w hj36 hjlt hset
  have hbody : (zlibCompress [FByte.doc v]).length = 2 := by
    simp [zlibCompress]
  have hHlen : ((MAGIC_NUMBER ++ natToBytesLE 4 VERSION ++ salt) ++ iv).length
      = 36 := by
    simp [MAGIC_NUMBER, natToBytesLE, hs, hi]
  have hctlen : (aesgcmEncrypt (derive_key p1 salt) iv
      (zlibCompress [FByte.doc v])).length = 18 := by
    simp [aesgcmEncrypt, hbody]
  have hfdlen : (encFile salt iv v p1).length = 54 := by
    unfold encFile
    simp [MAGIC_NUMBER, natToBytesLE, hs, hi, hctlen]
  rw [hfdlen] at hjlt
  have hj2 : j - 36 < 2 := by omega
  have hsplit : (encFile salt iv v p1).set j w
      = MAGIC_NUMBER ++ natToBytesLE 4 VERSION ++ salt ++ iv ++
        ((zlibCompress [FByte.doc v]).set (j - 36) w ++
          List.replicate 16 (FByte.tag (derive_key p1 salt) iv
            (zlibCompress [FByte.doc v]))) := by
    unfold encFile aesgcmEncrypt
    rw [List.set_append_right j w (by rw [hHlen]; omega), hHlen,
      List.set_append_left (j - 36) w (by rw [hbody]; omega)]
  have hne2 : (zlibCompress [FByte.doc v]).set (j - 36) w
      ≠ zlibCompress [FByte.doc v] := by
    intro hEq
    apply hset
    rw [hsplit, hEq]
    unfold encFile aesgcmEncrypt
    rfl
  obtain ⟨hlen', h4', hver', hsalt', hiv', hct'⟩ :=
    header_slices salt iv
      ((zlibCompress [FByte.doc v]).set (j - 36) w ++
        List.replicate 16 (FByte.tag (derive_key p1 salt) iv
          (zlibCompress [FByte.doc v]))) hs hi
  rw [hsplit, decrypt_book_data.eq_def,
    if_neg (by rw [hlen']; omega), if_neg (by rw [h4']; exact fun h => h rfl),
    if_neg (by rw [hver']; exact fun h => h rfl), hsalt', hiv', hct']
  have hwd := aesgcmDecrypt_wrongData (derive_key p1 salt) iv
    (zlibCompress [FByte.doc v]) ((zlibCompress [FByte.doc v]).set (j - 36) w)
    (List.length_set _ _ _) hne2
  simp only [hwd]

/-- C2 witness: concrete wrong-password rejection and one concrete corrupted
byte, both yielding the identical error. -/
theorem c2_wrong_password_rejected_witness :
    decrypt_book_data
        (encFile (List.replicate 16 (.byte 3)) (List.replicate 12 (.byte 4))
          (.str "secret text") "correct") "wrong"
      = .error (.valueError "Invalid password or corrupted file") ∧
    decrypt_book_data
        ((encFile (List.replicate 16 (.byte 3)) (List.replicate 12 (.byte 4))
          (.str "secret text") "correct").set 37 (.byte 99)) "correct"
      = .error (.valueError "Invalid password or corrupted file") := by
  have h := c2_wrong_password_rejected (.str "secret text") "correct" "wrong"
    (List.replicate 16 (.byte 3)) (List.replicate 12 (.byte 4))
    (encFile (List.replicate 16 (.byte 3)) (List.replicate 12 (.byte 4))
      (.str "secret text") "correct")
    (encrypt_book_data_eq _ _ _ _ (by decide) (by decide) (by decide))
    (by decide) (by decide) (by decide)
  exact ⟨h.1, h.2 37 (.byte 99) (by decide) (by decide) (by decide)⟩

/-- Helper: the interpolated version message never collides with the
too-small message. -/
theorem unsupported_msg_ne (s : String) :
    "Unsupported file version: " ++ s ≠ "Invalid file format: file too small" := by
  intro heq
  have hd := congrArg String.data heq
  rw [String.data_append] at hd
  have h1 : ("Unsupported file version: ".data ++ s.data).head? = some 'U' := rfl
  rw [hd] at h1
  exact absurd (Option.some.inj h1) (by decide)

/-- C3: decrypt_book_data raises the too-small ValueError exactly on inputs
shorter than 32 symbols; every input of length at least 32 — including
lengths 32 to 35, which cannot hold the full 36-symbol header — takes some
other branch and never produces that error. -/
theorem c3_too_small_iff (fd : List FByte) (p : String) :
    decrypt_book_data fd p
      = .error (.valueError "Invalid file format: file too small")
    ↔ fd.length < 32 := by
  constructor
  · intro h
    by_contra hlen
    rw [decrypt_book_data.eq_def, if_neg hlen] at h
    split at h
    · exact absurd (PyErr.valueError.inj (Except.error.inj h)) (by decide)
    · split at h
      · exact unsupported_msg_ne _ (PyErr.valueError.inj (Except.error.inj h))
      · have h' : (match aesgcmDecrypt
            (derive_key p (List.take 16 (List.drop 8 fd)))
            (List.take 12 (List.drop 24 fd)) (List.drop 36 fd) with
          | none =>
            Except.error (PyErr.valueError "Invalid password or corrupted file")
          | some compressed =>
            match zlibDecompress compressed with
            | none =>
              Except.error (PyErr.valueError "File corruption detected: bad data")
            | some jsonBytes =>
              match jsonLoads jsonBytes with
              | none =>
                Except.error
                  (PyErr.valueError "File corruption detected: bad data")
              | some v => Except.ok v)
            = Except.error
                (PyErr.valueError "Invalid file format: file too small") := h
        clear h
        split at h'
        · exact absurd (PyErr.valueError.inj (Except.error.inj h')) (by decide)
        · split at h'
          · exact absurd (PyErr.valueError.inj (Except.error.inj h')) (by decide)
          · split at h'
            · exact absurd (PyErr.valueError.inj (Except.error.inj h')) (by decide)
            · exact Except.noConfusion h'
  · intro h
    rw [decrypt_book_data.eq_def, if_pos h]

/-- C5: rotating the password of a file encrypted under pOld to a distinct
non-empty pNew yields bytes that decrypt under pNew to the original data,
while decrypting the rotated bytes with pOld raises the ambiguous
wrong-password ValueError.  salt2 and iv2 are the fresh os.urandom draws of
the re-encryption. -/
theorem c5_password_rotation (v : PyVal) (pOld pNew : String)
    (salt1 iv1 salt2 iv2 fd : List FByte)
    (henc : encrypt_book_data salt1 iv1 v pOld = .ok fd)
    (hs1 : salt1.length = 16) (hi1 : iv1.length = 12)
    (hs2 : salt2.length = 16) (hi2 : iv2.length = 12)
    (hnew : pNew ≠ "") (hne : pOld ≠ pNew) :
    ∃ fd2, change_password salt2 iv2 fd pOld pNew = .ok fd2 ∧
      decrypt_book_data fd2 pNew = .ok v ∧
      decrypt_book_data fd2 pOld
        = .error (.valueError "Invalid password or corrupted file") := by
  obtain ⟨hp1, hf, hj, rfl⟩ := encrypt_ok_inv henc
  have hdec := decrypt_encFile salt1 iv1 v pOld hs1 hi1
  refine ⟨encFile salt2 iv2 v pNew, ?_,
    decrypt_encFile salt2 iv2 v pNew hs2 hi2,
    decrypt_encFile_wrongPassword salt2 iv2 v pNew pOld hs2 hi2 hne⟩
  rw [change_password.eq_def, if_neg hnew]
  simp only [hdec]
  exact encrypt_book_data_eq salt2 iv2 v pNew hnew hf hj

/-- C5 witness: rotation evaluated at concrete data and passwords. -/
theorem c5_password_rotation_witness :
    ∃ fd2, change_password (List.replicate 16 (.byte 8))
        (List.replicate 12 (.byte 9))
        (encFile (List.replicate 16 (.byte 5)) (List.replicate 12 (.byte 6))
          (.dict [("title", .str "x")]) "old")
        "old" "new" = .ok fd2 ∧
      decrypt_book_data fd2 "new" = .ok (.dict [("title", .str "x")]) ∧
      decrypt_book_data fd2 "old"
        = .error (.valueError "Invalid password or corrupted file") :=
  c5_password_rotation (.dict [("title", .str "x")]) "old" "new"
    (List.replicate 16 (.byte 5)) (List.replicate 12 (.byte 6))
    (List.replicate 16 (.byte 8)) (List.replicate 12 (.byte 9))
    (encFile (List.replicate 16 (.byte 5)) (List.replicate 12 (.byte 6))
      (.dict [("title", .str "x")]) "old")
    (encrypt_book_data_eq _ _ _ _ (by decide) (by decide) (by decide))
    (by decide) (by decide) (by decide) (by decide) (by decide) (by decide)

/-- C6 counterexample: an 8-symbol input whose first 4 bytes are the magic
constant and whose version field decodes to 2 ≠ 1 nevertheless raises the
too-small error, not UnsupportedVersion — the size check fires first. -/
theorem c6_counterexample :
    decrypt_book_data [.byte 66, .byte 79, .byte 79, .byte 75,
        .byte 2, .byte 0, .byte 0, .byte 0] "pw"
      = .error (.valueError "Invalid file format: file too small") ∧
    (([FByte.byte 66, .byte 79, .byte 79, .byte 75,
        .byte 2, .byte 0, .byte 0, .byte 0] : List FByte).take 4
      = MAGIC_NUMBER) ∧
    fromBytesLE ((([FByte.byte 66, .byte 79, .byte 79, .byte 75,
        .byte 2, .byte 0, .byte 0, .byte 0] : List FByte).drop 4).take 4)
      = 2 :=
  ⟨rfl, rfl, rfl⟩

/-- C6 amended: every input of length at least 32 whose first 4 bytes equal
the magic constant and whose version field is not 1 raises
UnsupportedVersion, regardless of the remaining bytes; inputs shorter than
32 symbols hit the size check first instead. -/
theorem c6_version_gate (fd : List FByte) (p : String)
    (hlen : 32 ≤ fd.length) (hmagic : fd.take 4 = MAGIC_NUMBER)
    (hver : fromBytesLE ((fd.drop 4).take 4) ≠ 1) :
    decrypt_book_data fd p
      = .error (.valueError
          ("Unsupported file version: "
            ++ toString (fromBytesLE ((fd.drop 4).take 4)))) := by
  have hver' : fromBytesLE ((fd.drop 4).take 4) ≠ VERSION := hver
  rw [decrypt_book_data.eq_def, if_neg (by omega),
    if_neg (by rw [hmagic]; exact fun h => h rfl), if_pos hver']

/-- C6 witness: the version gate fires on a concrete 32-symbol version-2
file. -/
theorem c6_version_gate_witness :
    decrypt_book_data c6File "pw"
      = .error (.valueError
          ("Unsupported file version: "
            ++ toString (fromBytesLE ((c6File.drop 4).take 4)))) :=
  c6_version_gate c6File "pw" (by decide) (by decide) (by decide)

theorem dictGet_dictSet_ne (o : JObj) (k k' : String) (v : PyVal)
    (h : k' ≠ k) : dictGet (dictSet o k v) k' = dictGet o k' := by
  have hkk : ¬ (k = k') := fun hh => h hh.symm
  induction o with
  | nil => simp [dictSet, dictGet, hkk]
  | cons kv rest ih =>
    obtain ⟨k1, v1⟩ := kv
    by_cases hk1 : k1 = k
    · subst hk1
      simp [dictSet, dictGet, hkk]
    · simp [dictSet, if_neg hk1, dictGet, ih]

theorem dictSet_all (o : JObj) (k : String) (v : PyVal) (p : String → Bool)
    (h : o.all (fun kv => p kv.1) = true) (hk : p k = true) :
    (dictSet o k v).all (fun kv => p kv.1) = true := by
  induction o with
  | nil => simp [dictSet, hk]
  | cons kv rest ih =>
    obtain ⟨k1, v1⟩ := kv
    simp only [List.all_cons, Bool.and_eq_true] at h
    by_cases hk1 : k1 = k
    · simp [dictSet, hk1, hk, h.2]
    · simp [dictSet, hk1, h.1, ih h.2]

theorem mem_dictSet_ne {o : JObj} {k k' : String} {v w : PyVal}
    (hk : k' ≠ k) (hmem : (k', w) ∈ o) : (k', w) ∈ dictSet o k v := by
  induction o with
  | nil => cases hmem
  | cons kv rest ih =>
    obtain ⟨k1, v1⟩ := kv
    by_cases hk1 : k1 = k
    · rcases List.mem_cons.1 hmem with heq | hrest
      · exact absurd (congrArg Prod.fst heq) (fun hh => hk (hh.trans hk1))
      · simp only [dictSet, if_pos hk1]
        exact List.mem_cons_of_mem _ hrest
    · simp only [dictSet, if_neg hk1]
      rcases List.mem_cons.1 hmem with heq | hrest
      · exact List.mem_cons.2 (Or.inl heq)
      · exact List.mem_cons_of_mem _ (ih hrest)

/-- A well-formed date field never makes convertDateField raise, and the
conversion only touches the key k. -/
theorem convertDateField_ok (o : JObj) (k : String)
    (h : dateFieldOK o k = true) :
    ∃ o', convertDateField o k = .ok o' ∧
      (∀ p : String → Bool, p k = true →
        o.all (fun kv => p kv.1) = true → o'.all (fun kv => p kv.1) = true) ∧
      (∀ k', k' ≠ k → dictGet o' k' = dictGet o k') ∧
      (dictGet o k = none → o' = o) := by
  unfold dateFieldOK at h
  cases hg : dictGet o k with
  | none =>
    exact ⟨o, by simp [convertDateField, hg], fun p _ hall => hall,
      fun _ _ => rfl, fun _ => rfl⟩
  | some v =>
    cases v with
    | str s =>
      rw [hg] at h
      obtain ⟨t, ht⟩ := Option.isSome_iff_exists.1 h
      exact ⟨dictSet o k (.datetime t), by simp [convertDateField, hg, ht],
        fun p hk hall => dictSet_all o k _ p hall hk,
        fun k' hk' => dictGet_dictSet_ne o k k' _ hk',
        fun hn => Option.noConfusion hn⟩
    | int n =>
      exact ⟨o, by simp [convertDateField, hg], fun p _ hall => hall,
        fun _ _ => rfl, fun _ => rfl⟩
    | list l =>
      exact ⟨o, by simp [convertDateField, hg], fun p _ hall => hall,
        fun _ _ => rfl, fun _ => rfl⟩
    | dict d =>
      exact ⟨o, by simp [convertDateField, hg], fun p _ hall => hall,
        fun _ _ => rfl, fun _ => rfl⟩
    | datetime t =>
      exact ⟨o, by simp [convertDateField, hg], fun p _ hall => hall,
        fun _ _ => rfl, fun _ => rfl⟩

/-- Chapter.from_dict succeeds on every acceptable input. -/
theorem chapter_from_dict_ok (now : Nat) (fresh : String) (v : PyVal)
    (h : goodNested chapterFields v = true) :
    ∃ c, Chapter.from_dict now fresh v = .ok c := by
  cases v with
  | dict o =>
    simp only [goodNested, Bool.and_eq_true] at h
    obtain ⟨⟨hkeys, hcr⟩, hmo⟩ := h
    obtain ⟨o1, h1, hall1, hget1, hnone1⟩ := convertDateField_ok o "created" hcr
    have hmo1 : dateFieldOK o1 "modified" = true := by
      unfold dateFieldOK at hmo ⊢
      rw [hget1 "modified" (by decide)]
      exact hmo
    obtain ⟨o2, h2, hall2, hget2, hnone2⟩ := convertDateField_ok o1 "modified" hmo1
    have hkeys2 : o2.all (fun kv => chapterFields.contains kv.1) = true :=
      hall2 _ (by decide) (hall1 _ (by decide) hkeys)
    refine ⟨{ id := dictGetD o2 "id" (.str fresh),
              title := dictGetD o2 "title" (.str ""),
              content := dictGetD o2 "content" (.str ""),
              order := dictGetD o2 "order" (.int 0),
              word_count := dictGetD o2 "word_count" (.int 0),
              created := dictGetD o2 "created" (.datetime now),
              modified := dictGetD o2 "modified" (.datetime now) }, ?_⟩
    simp [Chapter.from_dict, h1, h2, Bind.bind, Except.bind, hkeys2,
      Pure.pure, Except.pure]
    intro x y hxy
    simpa using List.all_eq_true.1 hkeys2 (x, y) hxy
  | str s => simp [goodNested] at h
  | int n => simp [goodNested] at h
  | list l => simp [goodNested] at h
  | datetime t => simp [goodNested] at h

/-- Character.from_dict succeeds on every acceptable input. -/
theorem character_from_dict_ok (now : Nat) (fresh : String) (v : PyVal)
    (h : goodNested characterFields v = true) :
    ∃ c, Character.from_dict now fresh v = .ok c := by
  cases v with
  | dict o =>
    simp only [goodNested, Bool.and_eq_true] at h
    obtain ⟨⟨hkeys, hcr⟩, hmo⟩ := h
    obtain ⟨o1, h1, hall1, hget1, hnone1⟩ := convertDateField_ok o "created" hcr
    have hmo1 : dateFieldOK o1 "modified" = true := by
      unfold dateFieldOK at hmo ⊢
      rw [hget1 "modified" (by decide)]
      exact hmo
    obtain ⟨o2, h2, hall2, hget2, hnone2⟩ := convertDateField_ok o1 "modified" hmo1
    have hkeys2 : o2.all (fun kv => characterFields.contains kv.1) = true :=
      hall2 _ (by decide) (hall1 _ (by decide) hkeys)
    refine ⟨{ id := dictGetD o2 "id" (.str fresh),
              name := dictGetD o2 "name" (.str ""),
              description := dictGetD o2 "description" (.str ""),
              background := dictGetD o2 "background" (.str ""),
              attributes := dictGetD o2 "attributes" (.dict []),
              image_path := dictGetD o2 "image_path" (.str ""),
              created := dictGetD o2 "created" (.datetime now),
              modified := dictGetD o2 "modified" (.datetime now) }, ?_⟩
    simp [Character.from_dict, h1, h2, Bind.bind, Except.bind, hkeys2,
      Pure.pure, Except.pure]
    intro x y hxy
    simpa using List.all_eq_true.1 hkeys2 (x, y) hxy
  | str s => simp [goodNested] at h
  | int n => simp [goodNested] at h
  | list l => simp [goodNested] at h
  | datetime t => simp [goodNested] at h

/-- WorldBuilding.from_dict succeeds on every acceptable input. -/
theorem worldBuilding_from_dict_ok (now : Nat) (fresh : String) (v : PyVal)
    (h : goodNested worldBuildingFields v = true) :
    ∃ w, WorldBuilding.from_dict now fresh v = .ok w := by
  cases v with
  | dict o =>
    simp only [goodNested, Bool.and_eq_true] at h
    obtain ⟨⟨hkeys, hcr⟩, hmo⟩ := h
    obtain ⟨o1, h1, hall1, hget1, hnone1⟩ := convertDateField_ok o "created" hcr
    have hmo1 : dateFieldOK o1 "modified" = true := by
      unfold dateFieldOK at hmo ⊢
      rw [hget1 "modified" (by decide)]
      exact hmo
    obtain ⟨o2, h2, hall2, hget2, hnone2⟩ := convertDateField_ok o1 "modified" hmo1
    have hkeys2 : o2.all (fun kv => worldBuildingFields.contains kv.1) = true :=
      hall2 _ (by decide) (hall1 _ (by decide) hkeys)
    refine ⟨{ id := dictGetD o2 "id" (.str fresh),
              name := dictGetD o2 "name" (.str ""),
              description := dictGetD o2 "description" (.str ""),
              locations := dictGetD o2 "locations" (.dict []),
              rules := dictGetD o2 "rules" (.dict []),
              history := dictGetD o2 "history" (.str ""),
              created := dictGetD o2 "created" (.datetime now),
              modified := dictGetD o2 "modified" (.datetime now) }, ?_⟩
    simp [WorldBuilding.from_dict, h1, h2, Bind.bind, Except.bind,
      hkeys2, Pure.pure, Except.pure]
    intro x y hxy
    simpa using List.all_eq_true.1 hkeys2 (x, y) hxy
  | str s => simp [goodNested] at h
  | int n => simp [goodNested] at h
  | list l => simp [goodNested] at h
  | datetime t => simp [goodNested] at h

/-- StoryNote.from_dict succeeds on every acceptable input. -/
theorem storyNote_from_dict_ok (now : Nat) (fresh : String) (v : PyVal)
    (h : goodNested storyNoteFields v = true) :
    ∃ n, StoryNote.from_dict now fresh v = .ok n := by
  cases v with
  | dict o =>
    simp only [goodNested, Bool.and_eq_true] at h
    obtain ⟨⟨hkeys, hcr⟩, hmo⟩ := h
    obtain ⟨o1, h1, hall1, hget1, hnone1⟩ := convertDateField_ok o "created" hcr
    have hmo1 : dateFieldOK o1 "modified" = true := by
      unfold dateFieldOK at hmo ⊢
      rw [hget1 "modified" (by decide)]
      exact hmo
    obtain ⟨o2, h2, hall2, hget2, hnone2⟩ := convertDateField_ok o1 "modified" hmo1
    have hkeys2 : o2.all (fun kv => storyNoteFields.contains kv.1) = true :=
      hall2 _ (by decide) (hall1 _ (by decide) hkeys)
    refine ⟨{ id := dictGetD o2 "id" (.str fresh),
              title := dictGetD o2 "title" (.str ""),
              content := dictGetD o2 "content" (.str ""),
              created := dictGetD o2 "created" (.datetime now),
              modified := dictGetD o2 "modified" (.datetime now) }, ?_⟩
    simp [StoryNote.from_dict, h1, h2, Bind.bind, Except.bind, hkeys2,
      Pure.pure, Except.pure]
    intro x y hxy
    simpa using List.all_eq_true.1 hkeys2 (x, y) hxy
  | str s => simp [goodNested] at h
  | int n => simp [goodNested] at h
  | list l => simp [goodNested] at h
  | datetime t => simp [goodNested] at h

/-- mapME succeeds when every element succeeds. -/
theorem mapME_ok {α β : Type} (f : α → Except PyErr β) (l : List α)
    (h : ∀ x ∈ l, ∃ y, f x = .ok y) : ∃ ys, mapME f l = .ok ys := by
  induction l with
  | nil => exact ⟨[], rfl⟩
  | cons x xs ih =>
    obtain ⟨y, hy⟩ := h x (List.mem_cons_self _ _)
    obtain ⟨ys, hys⟩ := ih (fun a ha => h a (List.mem_cons_of_mem _ ha))
    exact ⟨y :: ys, by simp [mapME, hy, hys, Bind.bind, Except.bind,
      Pure.pure, Except.pure]⟩

/-- Python d.get(k, default) returns the default when the key is absent. -/
theorem dictGetD_of_none {o : JObj} {k : String} {d : PyVal}
    (h : dictGet o k = none) : dictGetD o k d = d := by
  simp [dictGetD, h]

/-- bookDateField succeeds on a well-formed book-level date field. -/
theorem bookDateField_ok (o : JObj) (k : String) (now : Nat)
    (h : bookDateOK o k = true) :
    ∃ d, bookDateField o k now = .ok d ∧
      (dictGet o k = none → d = .datetime now) := by
  unfold bookDateOK at h
  unfold bookDateField
  cases hg : dictGet o k with
  | none => exact ⟨_, rfl, fun _ => rfl⟩
  | some v =>
    rw [hg] at h
    cases v with
    | str s =>
      obtain ⟨t, ht⟩ := Option.isSome_iff_exists.1 h
      exact ⟨.datetime t, by simp [ht], fun hn => Option.noConfusion hn⟩
    | int n => cases h
    | list l => cases h
    | dict d => cases h
    | datetime t => cases h

/-- bookListField yields a list of acceptable nested values on a well-formed
book-level list field. -/
theorem bookListField_ok (o : JObj) (k : String) (fields : List String)
    (h : listFieldOK o k fields = true) :
    ∃ l, bookListField o k = .ok l ∧ (∀ x ∈ l, goodNested fields x = true) ∧
      (dictGet o k = none → l = []) := by
  unfold listFieldOK at h
  unfold bookListField
  cases hg : dictGet o k with
  | none => exact ⟨[], rfl, by simp, fun _ => rfl⟩
  | some v =>
    rw [hg] at h
    cases v with
    | list l =>
      refine ⟨l, rfl, fun x hx => ?_, fun hn => Option.noConfusion hn⟩
      have := List.all_eq_true.1 h x hx
      simpa using this
    | str s => cases h
    | int n => cases h
    | dict d => cases h
    | datetime t => cases h

/-- Book.from_dict runs to completion on every good input, and every missing
top-level field takes its declared default: fresh uuid for id, current
instant for the timestamps, empty lists for the nested collections, empty
strings and an empty dict elsewhere. -/
theorem book_from_dict_defaults (now : Nat) (fresh : String) (o : JObj)
    (h : GoodBookInput o = true) :
    ∃ b, Book.from_dict now fresh (.dict o) = .ok b ∧
      (dictGet o "id" = none → b.id = .str fresh) ∧
      (dictGet o "title" = none → b.title = .str "") ∧
      (dictGet o "author" = none → b.author = .str "") ∧
      (dictGet o "genre" = none → b.genre = .str "") ∧
      (dictGet o "created" = none → b.created = .datetime now) ∧
      (dictGet o "modified" = none → b.modified = .datetime now) ∧
      (dictGet o "chapters" = none → b.chapters = []) ∧
      (dictGet o "characters" = none → b.characters = []) ∧
      (dictGet o "world_building" = none → b.world_building = []) ∧
      (dictGet o "story_notes" = none → b.story_notes = []) ∧
      (dictGet o "story_background" = none → b.story_background = .str "") ∧
      (dictGet o "plot_outline" = none → b.plot_outline = .str "") ∧
      (dictGet o "research_notes" = none → b.research_notes = .str "") ∧
      (dictGet o "timeline" = none → b.timeline = .str "") ∧
      (dictGet o "metadata" = none → b.metadata = .dict []) := by
  simp only [GoodBookInput, Bool.and_eq_true] at h
  obtain ⟨⟨⟨⟨⟨hbc, hbm⟩, hch⟩, hca⟩, hwb⟩, hsn⟩ := h
  obtain ⟨dc, hdc, hdcn⟩ := bookDateField_ok o "created" now hbc
  obtain ⟨dm, hdm, hdmn⟩ := bookDateField_ok o "modified" now hbm
  obtain ⟨lch, hlch, hchall, hchn⟩ :=
    bookListField_ok o "chapters" chapterFields hch
  obtain ⟨lca, hlca, hcaall, hcan⟩ :=
    bookListField_ok o "characters" characterFields hca
  obtain ⟨lwb, hlwb, hwball, hwbn⟩ :=
    bookListField_ok o "world_building" worldBuildingFields hwb
  obtain ⟨lsn, hlsn, hsnall, hsnn⟩ :=
    bookListField_ok o "story_notes" storyNoteFields hsn
  obtain ⟨chs, hchs⟩ := mapME_ok (Chapter.from_dict now fresh) lch
    (fun x hx => chapter_from_dict_ok now fresh x (hchall x hx))
  obtain ⟨cas, hcas⟩ := mapME_ok (Character.from_dict now fresh) lca
    (fun x hx => character_from_dict_ok now fresh x (hcaall x hx))
  obtain ⟨wbs, hwbs⟩ := mapME_ok (WorldBuilding.from_dict now fresh) lwb
    (fun x hx => worldBuilding_from_dict_ok now fresh x (hwball x hx))
  obtain ⟨sns, hsns⟩ := mapME_ok (StoryNote.from_dict now fresh) lsn
    (fun x hx => storyNote_from_dict_ok now fresh x (hsnall x hx))
  refine ⟨{ id := dictGetD o "id" (.str fresh),
            title := dictGetD o "title" (.str ""),
            author := dictGetD o "author" (.str ""),
            genre := dictGetD o "genre" (.str ""),
            created := dc, modified := dm,
            chapters := chs, characters := cas,
            world_building := wbs, story_notes := sns,
            story_background := dictGetD o "story_background" (.str ""),
            plot_outline := dictGetD o "plot_outline" (.str ""),
            research_notes := dictGetD o "research_notes" (.str ""),
            timeline := dictGetD o "timeline" (.str ""),
            metadata := dictGetD o "metadata" (.dict []) }, ?_,
    fun hn => dictGetD_of_none hn, fun hn => dictGetD_of_none hn,
    fun hn => dictGetD_of_none hn, fun hn => dictGetD_of_none hn,
    fun hn => hdcn hn, fun hn => hdmn hn,
    fun hn => by rw [hchn hn] at hchs; exact (Except.ok.inj hchs).symm,
    fun hn => by rw [hcan hn] at hcas; exact (Except.ok.inj hcas).symm,
    fun hn => by rw [hwbn hn] at hwbs; exact (Except.ok.inj hwbs).symm,
    fun hn => by rw [hsnn hn] at hsns; exact (Except.ok.inj hsns).symm,
    fun hn => dictGetD_of_none hn, fun hn => dictGetD_of_none hn,
    fun hn => dictGetD_of_none hn, fun hn => dictGetD_of_none hn,
    fun hn => dictGetD_of_none hn⟩
  simp [Book.from_dict, hdc, hdm, hlch, hlca, hlwb, hlsn, hchs, hcas,
    hwbs, hsns, Bind.bind, Except.bind, Pure.pure, Except.pure]

/-- convertDateField never deletes a key other than the converted one. -/
theorem convertDateField_mem {o o' : JObj} {k : String}
    (h : convertDateField o k = .ok o') {k' : String} {w : PyVal}
    (hk : k' ≠ k) (hmem : (k', w) ∈ o) : ∃ w', (k', w') ∈ o' := by
  cases hg : dictGet o k with
  | none =>
    simp only [convertDateField, hg] at h
    exact ⟨w, Except.ok.inj h ▸ hmem⟩
  | some v =>
    cases v with
    | str s =>
      cases ht : fromisoformat s with
      | some t =>
        simp only [convertDateField, hg, ht] at h
        exact ⟨w, Except.ok.inj h ▸ mem_dictSet_ne hk hmem⟩
      | none =>
        simp only [convertDateField, hg, ht] at h
        exact Except.noConfusion h
    | int n =>
      simp only [convertDateField, hg] at h
      exact ⟨w, Except.ok.inj h ▸ hmem⟩
    | list l =>
      simp only [convertDateField, hg] at h
      exact ⟨w, Except.ok.inj h ▸ hmem⟩
    | dict d =>
      simp only [convertDateField, hg] at h
      exact ⟨w, Except.ok.inj h ▸ hmem⟩
    | datetime t =>
      simp only [convertDateField, hg] at h
      exact ⟨w, Except.ok.inj h ▸ hmem⟩

/-- A dict holding any key outside the dataclass fields makes
Chapter.from_dict raise (TypeError from cls(**data), or the earlier
date-parsing ValueError). -/
theorem chapter_from_dict_unknown_key (now : Nat) (fresh : String) (o : JObj)
    (h : ∃ kv ∈ o, chapterFields.contains kv.1 = false) :
    ∃ e, Chapter.from_dict now fresh (.dict o) = .error e := by
  obtain ⟨⟨k', w⟩, hmem, hbad⟩ := h
  cases h1 : convertDateField o "created" with
  | error e =>
    exact ⟨e, by simp [Chapter.from_dict, h1, Bind.bind, Except.bind]⟩
  | ok o1 =>
    cases h2 : convertDateField o1 "modified" with
    | error e =>
      exact ⟨e, by simp [Chapter.from_dict, h1, h2, Bind.bind, Except.bind]⟩
    | ok o2 =>
      have hk1 : k' ≠ "created" := by
        intro hh
        subst hh
        simp [chapterFields] at hbad
      have hk2 : k' ≠ "modified" := by
        intro hh
        subst hh
        simp [chapterFields] at hbad
      obtain ⟨w1, hmem1⟩ := convertDateField_mem h1 hk1 hmem
      obtain ⟨w2, hmem2⟩ := convertDateField_mem h2 hk2 hmem1
      have hall : o2.all (fun kv => chapterFields.contains kv.1) = false :=
        List.all_eq_false.2 ⟨(k', w2), hmem2, by simpa using hbad⟩
      refine ⟨.typeError, ?_⟩
      have hcond : ¬ ((o2.all fun kv => chapterFields.contains kv.1) = true) := by
        rw [hall]
        exact Bool.false_ne_true
      simp only [Chapter.from_dict, h1, h2, Bind.bind, Except.bind]
      rw [if_neg hcond]

/-- A dict holding any key outside the Character fields makes
Character.from_dict raise. -/
theorem character_from_dict_unknown_key (now : Nat) (fresh : String)
    (o : JObj) (h : ∃ kv ∈ o, characterFields.contains kv.1 = false) :
    ∃ e, Character.from_dict now fresh (.dict o) = .error e := by
  obtain ⟨⟨k', w⟩, hmem, hbad⟩ := h
  cases h1 : convertDateField o "created" with
  | error e =>
    exact ⟨e, by simp [Character.from_dict, h1, Bind.bind, Except.bind]⟩
  | ok o1 =>
    cases h2 : convertDateField o1 "modified" with
    | error e =>
      exact ⟨e, by simp [Character.from_dict, h1, h2, Bind.bind, Except.bind]⟩
    | ok o2 =>
      have hk1 : k' ≠ "created" := by
        intro hh
        subst hh
        simp [characterFields] at hbad
      have hk2 : k' ≠ "modified" := by
        intro hh
        subst hh
        simp [characterFields] at hbad
      obtain ⟨w1, hmem1⟩ := convertDateField_mem h1 hk1 hmem
      obtain ⟨w2, hmem2⟩ := convertDateField_mem h2 hk2 hmem1
      have hall : o2.all (fun kv => characterFields.contains kv.1) = false :=
        List.all_eq_false.2 ⟨(k', w2), hmem2, by simpa using hbad⟩
      refine ⟨.typeError, ?_⟩
      have hcond :
          ¬ ((o2.all fun kv => characterFields.contains kv.1) = true) := by
        rw [hall]
        exact Bool.false_ne_true
      simp only [Character.from_dict, h1, h2, Bind.bind, Except.bind]
      rw [if_neg hcond]

/-- A dict holding any key outside the WorldBuilding fields makes
WorldBuilding.from_dict raise. -/
theorem worldBuilding_from_dict_unknown_key (now : Nat) (fresh : String)
    (o : JObj) (h : ∃ kv ∈ o, worldBuildingFields.contains kv.1 = false) :
    ∃ e, WorldBuilding.from_dict now fresh (.dict o) = .error e := by
  obtain ⟨⟨k', w⟩, hmem, hbad⟩ := h
  cases h1 : convertDateField o "created" with
  | error e =>
    exact ⟨e, by simp [WorldBuilding.from_dict, h1, Bind.bind, Except.bind]⟩
  | ok o1 =>
    cases h2 : convertDateField o1 "modified" with
    | error e =>
      exact ⟨e, by
        simp [WorldBuilding.from_dict, h1, h2, Bind.bind, Except.bind]⟩
    | ok o2 =>
      have hk1 : k' ≠ "created" := by
        intro hh
        subst hh
        simp [worldBuildingFields] at hbad
      have hk2 : k' ≠ "modified" := by
        intro hh
        subst hh
        simp [worldBuildingFields] at hbad
      obtain ⟨w1, hmem1⟩ := convertDateField_mem h1 hk1 hmem
      obtain ⟨w2, hmem2⟩ := convertDateField_mem h2 hk2 hmem1
      have hall :
          o2.all (fun kv => worldBuildingFields.contains kv.1) = false :=
        List.all_eq_false.2 ⟨(k', w2), hmem2, by simpa using hbad⟩
      refine ⟨.typeError, ?_⟩
      have hcond :
          ¬ ((o2.all fun kv => worldBuildingFields.contains kv.1) = true) := by
        rw [hall]
        exact Bool.false_ne_true
      simp only [WorldBuilding.from_dict, h1, h2, Bind.bind, Except.bind]
      rw [if_neg hcond]

/-- A dict holding any key outside the StoryNote fields makes
StoryNote.from_dict raise. -/
theorem storyNote_from_dict_unknown_key (now : Nat) (fresh : String)
    (o : JObj) (h : ∃ kv ∈ o, storyNoteFields.contains kv.1 = false) :
    ∃ e, StoryNote.from_dict now fresh (.dict o) = .error e := by
  obtain ⟨⟨k', w⟩, hmem, hbad⟩ := h
  cases h1 : convertDateField o "created" with
  | error e =>
    exact ⟨e, by simp [StoryNote.from_dict, h1, Bind.bind, Except.bind]⟩
  | ok o1 =>
    cases h2 : convertDateField o1 "modified" with
    | error e =>
      exact ⟨e, by simp [StoryNote.from_dict, h1, h2, Bind.bind, Except.bind]⟩
    | ok o2 =>
      have hk1 : k' ≠ "created" := by
        intro hh
        subst hh
        simp [storyNoteFields] at hbad
      have hk2 : k' ≠ "modified" := by
        intro hh
        subst hh
        simp [storyNoteFields] at hbad
      obtain ⟨w1, hmem1⟩ := convertDateField_mem h1 hk1 hmem
      obtain ⟨w2, hmem2⟩ := convertDateField_mem h2 hk2 hmem1
      have hall : o2.all (fun kv => storyNoteFields.contains kv.1) = false :=
        List.all_eq_false.2 ⟨(k', w2), hmem2, by simpa using hbad⟩
      refine ⟨.typeError, ?_⟩
      have hcond :
          ¬ ((o2.all fun kv => storyNoteFields.contains kv.1) = true) := by
        rw [hall]
        exact Bool.false_ne_true
      simp only [StoryNote.from_dict, h1, h2, Bind.bind, Except.bind]
      rw [if_neg hcond]

/-- Chapter.from_dict succeeds on every acceptable input and every missing
field takes its declared default (fresh uuid for id, empty strings, zero
int, the current instant for the timestamps). -/
theorem chapter_from_dict_defaults (now : Nat) (fresh : String) (o : JObj)
    (h : goodNested chapterFields (.dict o) = true) :
    ∃ c, Chapter.from_dict now fresh (.dict o) = .ok c ∧
      (dictGet o "id" = none → c.id = .str fresh) ∧
      (dictGet o "title" = none → c.title = .str "") ∧
      (dictGet o "content" = none → c.content = .str "") ∧
      (dictGet o "order" = none → c.order = .int 0) ∧
      (dictGet o "word_count" = none → c.word_count = .int 0) ∧
      (dictGet o "created" = none → c.created = .datetime now) ∧
      (dictGet o "modified" = none → c.modified = .datetime now) := by
  simp only [goodNested, Bool.and_eq_true] at h
  obtain ⟨⟨hkeys, hcr⟩, hmo⟩ := h
  obtain ⟨o1, h1, hall1, hget1, hnone1⟩ := convertDateField_ok o "created" hcr
  have hmo1 : dateFieldOK o1 "modified" = true := by
    unfold dateFieldOK at hmo ⊢
    rw [hget1 "modified" (by decide)]
    exact hmo
  obtain ⟨o2, h2, hall2, hget2, hnone2⟩ :=
    convertDateField_ok o1 "modified" hmo1
  have hkeys2 : o2.all (fun kv => chapterFields.contains kv.1) = true :=
    hall2 _ (by decide) (hall1 _ (by decide) hkeys)
  have hplain : ∀ k', k' ≠ "created" → k' ≠ "modified" →
      dictGet o2 k' = dictGet o k' :=
    fun k' hc hm => (hget2 k' hm).trans (hget1 k' hc)
  have hcreated : dictGet o "created" = none →
      dictGet o2 "created" = none := by
    intro hn
    rw [hget2 "created" (by decide), hnone1 hn]
    exact hn
  have hmodified : dictGet o "modified" = none →
      dictGet o2 "modified" = none := by
    intro hn
    have hm1 : dictGet o1 "modified" = none := by
      rw [hget1 "modified" (by decide)]
      exact hn
    rw [hnone2 hm1]
    exact hm1
  refine ⟨{ id := dictGetD o2 "id" (.str fresh),
            title := dictGetD o2 "title" (.str ""),
            content := dictGetD o2 "content" (.str ""),
            order := dictGetD o2 "order" (.int 0),
            word_count := dictGetD o2 "word_count" (.int 0),
            created := dictGetD o2 "created" (.datetime now),
            modified := dictGetD o2 "modified" (.datetime now) }, ?_,
    fun hn => dictGetD_of_none
      ((hplain "id" (by decide) (by decide)).trans hn),
    fun hn => dictGetD_of_none
      ((hplain "title" (by decide) (by decide)).trans hn),
    fun hn => dictGetD_of_none
      ((hplain "content" (by decide) (by decide)).trans hn),
    fun hn => dictGetD_of_none
      ((hplain "order" (by decide) (by decide)).trans hn),
    fun hn => dictGetD_of_none
      ((hplain "word_count" (by decide) (by decide)).trans hn),
    fun hn => dictGetD_of_none (hcreated hn),
    fun hn => dictGetD_of_none (hmodified hn)⟩
  simp [Chapter.from_dict, h1, h2, Bind.bind, Except.bind, hkeys2,
    Pure.pure, Except.pure]
  intro x y hxy
  simpa using List.all_eq_true.1 hkeys2 (x, y) hxy

/-- Character.from_dict succeeds on every acceptable input and every missing
field takes its declared default. -/
theorem character_from_dict_defaults (now : Nat) (fresh : String) (o : JObj)
    (h : goodNested characterFields (.dict o) = true) :
    ∃ c, Character.from_dict now fresh (.dict o) = .ok c ∧
      (dictGet o "id" = none → c.id = .str fresh) ∧
      (dictGet o "name" = none → c.name = .str "") ∧
      (dictGet o "description" = none → c.description = .str "") ∧
      (dictGet o "background" = none → c.background = .str "") ∧
      (dictGet o "attributes" = none → c.attributes = .dict []) ∧
      (dictGet o "image_path" = none → c.image_path = .str "") ∧
      (dictGet o "created" = none → c.created = .datetime now) ∧
      (dictGet o "modified" = none → c.modified = .datetime now) := by
  simp only [goodNested, Bool.and_eq_true] at h
  obtain ⟨⟨hkeys, hcr⟩, hmo⟩ := h
  obtain ⟨o1, h1, hall1, hget1, hnone1⟩ := convertDateField_ok o "created" hcr
  have hmo1 : dateFieldOK o1 "modified" = true := by
    unfold dateFieldOK at hmo ⊢
    rw [hget1 "modified" (by decide)]
    exact hmo
  obtain ⟨o2, h2, hall2, hget2, hnone2⟩ :=
    convertDateField_ok o1 "modified" hmo1
  have hkeys2 : o2.all (fun kv => characterFields.contains kv.1) = true :=
    hall2 _ (by decide) (hall1 _ (by decide) hkeys)
  have hplain : ∀ k', k' ≠ "created" → k' ≠ "modified" →
      dictGet o2 k' = dictGet o k' :=
    fun k' hc hm => (hget2 k' hm).trans (hget1 k' hc)
  have hcreated : dictGet o "created" = none →
      dictGet o2 "created" = none := by
    intro hn
    rw [hget2 "created" (by decide), hnone1 hn]
    exact hn
  have hmodified : dictGet o "modified" = none →
      dictGet o2 "modified" = none := by
    intro hn
    have hm1 : dictGet o1 "modified" = none := by
      rw [hget1 "modified" (by decide)]
      exact hn
    rw [hnone2 hm1]
    exact hm1
  refine ⟨{ id := dictGetD o2 "id" (.str fresh),
            name := dictGetD o2 "name" (.str ""),
            description := dictGetD o2 "description" (.str ""),
            background := dictGetD o2 "background" (.str ""),
            attributes := dictGetD o2 "attributes" (.dict []),
            image_path := dictGetD o2 "image_path" (.str ""),
            created := dictGetD o2 "created" (.datetime now),
            modified := dictGetD o2 "modified" (.datetime now) }, ?_,
    fun hn => dictGetD_of_none
      ((hplain "id" (by decide) (by decide)).trans hn),
    fun hn => dictGetD_of_none
      ((hplain "name" (by decide) (by decide)).trans hn),
    fun hn => dictGetD_of_none
      ((hplain "description" (by decide) (by decide)).trans hn),
    fun hn => dictGetD_of_none
      ((hplain "background" (by decide) (by decide)).trans hn),
    fun hn => dictGetD_of_none
      ((hplain "attributes" (by decide) (by decide)).trans hn),
    fun hn => dictGetD_of_none
      ((hplain "image_path" (by decide) (by decide)).trans hn),
    fun hn => dictGetD_of_none (hcreated hn),
    fun hn => dictGetD_of_none (hmodified hn)⟩
  simp [Character.from_dict, h1, h2, Bind.bind, Except.bind, hkeys2,
    Pure.pure, Except.pure]
  intro x y hxy
  simpa using List.all_eq_true.1 hkeys2 (x, y) hxy

/-- WorldBuilding.from_dict succeeds on every acceptable input and every
missing field takes its declared default. -/
theorem worldBuilding_from_dict_defaults (now : Nat) (fresh : String)
    (o : JObj) (h : goodNested worldBuildingFields (.dict o) = true) :
    ∃ w, WorldBuilding.from_dict now fresh (.dict o) = .ok w ∧
      (dictGet o "id" = none → w.id = .str fresh) ∧
      (dictGet o "name" = none → w.name = .str "") ∧
      (dictGet o "description" = none → w.description = .str "") ∧
      (dictGet o "locations" = none → w.locations = .dict []) ∧
      (dictGet o "rules" = none → w.rules = .dict []) ∧
      (dictGet o "history" = none → w.history = .str "") ∧
      (dictGet o "created" = none → w.created = .datetime now) ∧
      (dictGet o "modified" = none → w.modified = .datetime now) := by
  simp only [goodNested, Bool.and_eq_true] at h
  obtain ⟨⟨hkeys, hcr⟩, hmo⟩ := h
  obtain ⟨o1, h1, hall1, hget1, hnone1⟩ := convertDateField_ok o "created" hcr
  have hmo1 : dateFieldOK o1 "modified" = true := by
    unfold dateFieldOK at hmo ⊢
    rw [hget1 "modified" (by decide)]
    exact hmo
  obtain ⟨o2, h2, hall2, hget2, hnone2⟩ :=
    convertDateField_ok o1 "modified" hmo1
  have hkeys2 : o2.all (fun kv => worldBuildingFields.contains kv.1) = true :=
    hall2 _ (by decide) (hall1 _ (by decide) hkeys)
  have hplain : ∀ k', k' ≠ "created" → k' ≠ "modified" →
      dictGet o2 k' = dictGet o k' :=
    fun k' hc hm => (hget2 k' hm).trans (hget1 k' hc)
  have hcreated : dictGet o "created" = none →
      dictGet o2 "created" = none := by
    intro hn
    rw [hget2 "created" (by decide), hnone1 hn]
    exact hn
  have hmodified : dictGet o "modified" = none →
      dictGet o2 "modified" = none := by
    intro hn
    have hm1 : dictGet o1 "modified" = none := by
      rw [hget1 "modified" (by decide)]
      exact hn
    rw [hnone2 hm1]
    exact hm1
  refine ⟨{ id := dictGetD o2 "id" (.str fresh),
            name := dictGetD o2 "name" (.str ""),
            description := dictGetD o2 "description" (.str ""),
            locations := dictGetD o2 "locations" (.dict []),
            rules := dictGetD o2 "rules" (.dict []),
            history := dictGetD o2 "history" (.str ""),
            created := dictGetD o2 "created" (.datetime now),
            modified := dictGetD o2 "modified" (.datetime now) }, ?_,
    fun hn => dictGetD_of_none
      ((hplain "id" (by decide) (by decide)).trans hn),
    fun hn => dictGetD_of_none
      ((hplain "name" (by decide) (by decide)).trans hn),
    fun hn => dictGetD_of_none
      ((hplain "description" (by decide) (by decide)).trans hn),
    fun hn => dictGetD_of_none
      ((hplain "locations" (by decide) (by decide)).trans hn),
    fun hn => dictGetD_of_none
      ((hplain "rules" (by decide) (by decide)).trans hn),
    fun hn => dictGetD_of_none
      ((hplain "history" (by decide) (by decide)).trans hn),
    fun hn => dictGetD_of_none (hcreated hn),
    fun hn => dictGetD_of_none (hmodified hn)⟩
  simp [WorldBuilding.from_dict, h1, h2, Bind.bind, Except.bind, hkeys2,
    Pure.pure, Except.pure]
  intro x y hxy
  simpa using List.all_eq_true.1 hkeys2 (x, y) hxy

/-- StoryNote.from_dict succeeds on every acceptable input and every missing
field takes its declared default. -/
theorem storyNote_from_dict_defaults (now : Nat) (fresh : String) (o : JObj)
    (h : goodNested storyNoteFields (.dict o) = true) :
    ∃ n, StoryNote.from_dict now fresh (.dict o) = .ok n ∧
      (dictGet o "id" = none → n.id = .str fresh) ∧
      (dictGet o "title" = none → n.title = .str "") ∧
      (dictGet o "content" = none → n.content = .str "") ∧
      (dictGet o "created" = none → n.created = .datetime now) ∧
      (dictGet o "modified" = none → n.modified = .datetime now) := by
  simp only [goodNested, Bool.and_eq_true] at h
  obtain ⟨⟨hkeys, hcr⟩, hmo⟩ := h
  obtain ⟨o1, h1, hall1, hget1, hnone1⟩ := convertDateField_ok o "created" hcr
  have hmo1 : dateFieldOK o1 "modified" = true := by
    unfold dateFieldOK at hmo ⊢
    rw [hget1 "modified" (by decide)]
    exact hmo
  obtain ⟨o2, h2, hall2, hget2, hnone2⟩ :=
    convertDateField_ok o1 "modified" hmo1
  have hkeys2 : o2.all (fun kv => storyNoteFields.contains kv.1) = true :=
    hall2 _ (by decide) (hall1 _ (by decide) hkeys)
  have hplain : ∀ k', k' ≠ "created" → k' ≠ "modified" →
      dictGet o2 k' = dictGet o k' :=
    fun k' hc hm => (hget2 k' hm).trans (hget1 k' hc)
  have hcreated : dictGet o "created" = none →
      dictGet o2 "created" = none := by
    intro hn
    rw [hget2 "created" (by decide), hnone1 hn]
    exact hn
  have hmodified : dictGet o "modified" = none →
      dictGet o2 "modified" = none := by
    intro hn
    have hm1 : dictGet o1 "modified" = none := by
      rw [hget1 "modified" (by decide)]
      exact hn
    rw [hnone2 hm1]
    exact hm1
  refine ⟨{ id := dictGetD o2 "id" (.str fresh),
            title := dictGetD o2 "title" (.str ""),
            content := dictGetD o2 "content" (.str ""),
            created := dictGetD o2 "created" (.datetime now),
            modified := dictGetD o2 "modified" (.datetime now) }, ?_,
    fun hn => dictGetD_of_none
      ((hplain "id" (by decide) (by decide)).trans hn),
    fun hn => dictGetD_of_none
      ((hplain "title" (by decide) (by decide)).trans hn),
    fun hn => dictGetD_of_none
      ((hplain "content" (by decide) (by decide)).trans hn),
    fun hn => dictGetD_of_none (hcreated hn),
    fun hn => dictGetD_of_none (hmodified hn)⟩
  simp [StoryNote.from_dict, h1, h2, Bind.bind, Except.bind, hkeys2,
    Pure.pure, Except.pure]
  intro x y hxy
  simpa using List.all_eq_true.1 hkeys2 (x, y) hxy

/-- C4 counterexample: a serialized document whose chapter entry carries one
extra unknown field makes deserialization fail with TypeError (and so does
the nested Chapter.from_dict on its own), contradicting the claim that
unknown fields are tolerated. -/
theorem c4_counterexample :
    Book.from_dict 0 "u"
        (.dict [("chapters", .list [.dict [("extra_field", .int 1)]])])
      = .error .typeError ∧
    Chapter.from_dict 0 "u" (.dict [("extra_field", .int 1)])
      = .error .typeError :=
  ⟨rfl, rfl⟩

/-- C4 amended: deserialization never fails on missing fields or on unknown
top-level fields — Book.from_dict reads each field with data.get, ignoring
unknown keys, and a missing field takes its declared default (fresh uuid for
id, the current instant for created/modified, empty lists for the nested
collections, 0 for order and word_count, empty strings and empty dicts
elsewhere), at the Book level and in all four nested dataclasses; but an
unknown extra field inside a nested chapter, character, world-building or
story-note dict makes that dataclass's from_dict (which ends in cls(**data))
raise an error instead of tolerating it. -/
theorem c4_missing_fields_default_unknown_nested_rejected
    (now : Nat) (fresh : String) :
    (∀ o : JObj, GoodBookInput o = true →
      ∃ b, Book.from_dict now fresh (.dict o) = .ok b ∧
        (dictGet o "id" = none → b.id = .str fresh) ∧
        (dictGet o "title" = none → b.title = .str "") ∧
        (dictGet o "author" = none → b.author = .str "") ∧
        (dictGet o "genre" = none → b.genre = .str "") ∧
        (dictGet o "created" = none → b.created = .datetime now) ∧
        (dictGet o "modified" = none → b.modified = .datetime now) ∧
        (dictGet o "chapters" = none → b.chapters = []) ∧
        (dictGet o "characters" = none → b.characters = []) ∧
        (dictGet o "world_building" = none → b.world_building = []) ∧
        (dictGet o "story_notes" = none → b.story_notes = []) ∧
        (dictGet o "story_background" = none → b.story_background = .str "") ∧
        (dictGet o "plot_outline" = none → b.plot_outline = .str "") ∧
        (dictGet o "research_notes" = none → b.research_notes = .str "") ∧
        (dictGet o "timeline" = none → b.timeline = .str "") ∧
        (dictGet o "metadata" = none → b.metadata = .dict [])) ∧
    (∀ o : JObj, goodNested chapterFields (.dict o) = true →
      ∃ c, Chapter.from_dict now fresh (.dict o) = .ok c ∧
        (dictGet o "id" = none → c.id = .str fresh) ∧
        (dictGet o "title" = none → c.title = .str "") ∧
        (dictGet o "content" = none → c.content = .str "") ∧
        (dictGet o "order" = none → c.order = .int 0) ∧
        (dictGet o "word_count" = none → c.word_count = .int 0) ∧
        (dictGet o "created" = none → c.created = .datetime now) ∧
        (dictGet o "modified" = none → c.modified = .datetime now)) ∧
    (∀ o : JObj, goodNested characterFields (.dict o) = true →
      ∃ c, Character.from_dict now fresh (.dict o) = .ok c ∧
        (dictGet o "id" = none → c.id = .str fresh) ∧
        (dictGet o "name" = none → c.name = .str "") ∧
        (dictGet o "description" = none → c.description = .str "") ∧
        (dictGet o "background" = none → c.background = .str "") ∧
        (dictGet o "attributes" = none → c.attributes = .dict []) ∧
        (dictGet o "image_path" = none → c.image_path = .str "") ∧
        (dictGet o "created" = none → c.created = .datetime now) ∧
        (dictGet o "modified" = none → c.modified = .datetime now)) ∧
    (∀ o : JObj, goodNested worldBuildingFields (.dict o) = true →
      ∃ w, WorldBuilding.from_dict now fresh (.dict o) = .ok w ∧
        (dictGet o "id" = none → w.id = .str fresh) ∧
        (dictGet o "name" = none → w.name = .str "") ∧
        (dictGet o "description" = none → w.description = .str "") ∧
        (dictGet o "locations" = none → w.locations = .dict []) ∧
        (dictGet o "rules" = none → w.rules = .dict []) ∧
        (dictGet o "history" = none → w.history = .str "") ∧
        (dictGet o "created" = none → w.created = .datetime now) ∧
        (dictGet o "modified" = none → w.modified = .datetime now)) ∧
    (∀ o : JObj, goodNested storyNoteFields (.dict o) = true →
      ∃ n, StoryNote.from_dict now fresh (.dict o) = .ok n ∧
        (dictGet o "id" = none → n.id = .str fresh) ∧
        (dictGet o "title" = none → n.title = .str "") ∧
        (dictGet o "content" = none → n.content = .str "") ∧
        (dictGet o "created" = none → n.created = .datetime now) ∧
        (dictGet o "modified" = none → n.modified = .datetime now)) ∧
    (∀ o : JObj, (∃ kv ∈ o, chapterFields.contains kv.1 = false) →
      ∃ e, Chapter.from_dict now fresh (.dict o) = .error e) ∧
    (∀ o : JObj, (∃ kv ∈ o, characterFields.contains kv.1 = false) →
      ∃ e, Character.from_dict now fresh (.dict o) = .error e) ∧
    (∀ o : JObj, (∃ kv ∈ o, worldBuildingFields.contains kv.1 = false) →
      ∃ e, WorldBuilding.from_dict now fresh (.dict o) = .error e) ∧
    (∀ o : JObj, (∃ kv ∈ o, storyNoteFields.contains kv.1 = false) →
      ∃ e, StoryNote.from_dict now fresh (.dict o) = .error e) :=
  ⟨fun o h => book_from_dict_defaults now fresh o h,
   fun o h => chapter_from_dict_defaults now fresh o h,
   fun o h => character_from_dict_defaults now fresh o h,
   fun o h => worldBuilding_from_dict_defaults now fresh o h,
   fun o h => storyNote_from_dict_defaults now fresh o h,
   fun o h => chapter_from_dict_unknown_key now fresh o h,
   fun o h => character_from_dict_unknown_key now fresh o h,
   fun o h => worldBuilding_from_dict_unknown_key now fresh o h,
   fun o h => storyNote_from_dict_unknown_key now fresh o h⟩

/-- C4 witness: concrete inputs exercising every part — a top-level unknown
key with all fields missing deserializes to the defaults; nested dicts with
missing fields take their defaults; a nested unknown key errors in each of
the four dataclasses. -/
theorem c4_missing_fields_default_unknown_nested_rejected_witness :
    (∃ b, Book.from_dict 0 "u" (.dict [("unknown_key", .int 3)]) = .ok b ∧
      b.id = .str "u" ∧ b.title = .str "" ∧ b.created = .datetime 0 ∧
      b.chapters = [] ∧ b.metadata = .dict []) ∧
    (∃ c, Chapter.from_dict 0 "u" (.dict [("title", .str "T")]) = .ok c ∧
      c.id = .str "u" ∧ c.order = .int 0 ∧ c.word_count = .int 0 ∧
      c.created = .datetime 0 ∧ c.modified = .datetime 0) ∧
    (∃ c, Character.from_dict 0 "u" (.dict []) = .ok c ∧
      c.name = .str "" ∧ c.attributes = .dict []) ∧
    (∃ w, WorldBuilding.from_dict 0 "u" (.dict []) = .ok w ∧
      w.locations = .dict [] ∧ w.rules = .dict []) ∧
    (∃ n, StoryNote.from_dict 0 "u" (.dict []) = .ok n ∧
      n.content = .str "") ∧
    (∃ e, Chapter.from_dict 0 "u" (.dict [("oops", .int 1)]) = .error e) ∧
    (∃ e, Character.from_dict 0 "u" (.dict [("oops", .int 1)]) = .error e) ∧
    (∃ e, WorldBuilding.from_dict 0 "u" (.dict [("oops", .int 1)])
      = .error e) ∧
    (∃ e, StoryNote.from_dict 0 "u" (.dict [("oops", .int 1)]) = .error e) := by
  obtain ⟨hbook, hchd, hcad, hwbd, hsnd, hek1, hek2, hek3, hek4⟩ :=
    c4_missing_fields_default_unknown_nested_rejected 0 "u"
  refine ⟨?_, ?_, ?_, ?_, ?_,
    hek1 _ ⟨("oops", .int 1), by decide, by decide⟩,
    hek2 _ ⟨("oops", .int 1), by decide, by decide⟩,
    hek3 _ ⟨("oops", .int 1), by decide, by decide⟩,
    hek4 _ ⟨("oops", .int 1), by decide, by decide⟩⟩
  · obtain ⟨b, hb, f1, f2, f3, f4, f5, f6, f7, f8, f9, f10, f11, f12, f13,
      f14, f15⟩ := hbook [("unknown_key", .int 3)] (by decide)
    exact ⟨b, hb, f1 (by decide), f2 (by decide), f5 (by decide),
      f7 (by decide), f15 (by decide)⟩
  · obtain ⟨c, hc, g1, g2, g3, g4, g5, g6, g7⟩ :=
      hchd [("title", .str "T")] (by decide)
    exact ⟨c, hc, g1 (by decide), g4 (by decide), g5 (by decide),
      g6 (by decide), g7 (by decide)⟩
  · obtain ⟨c, hc, g1, g2, g3, g4, g5, g6, g7, g8⟩ := hcad [] (by decide)
    exact ⟨c, hc, g2 (by decide), g5 (by decide)⟩
  · obtain ⟨w, hw, g1, g2, g3, g4, g5, g6, g7, g8⟩ := hwbd [] (by decide)
    exact ⟨w, hw, g4 (by decide), g5 (by decide)⟩
  · obtain ⟨n, hn, g1, g2, g3, g4, g5⟩ := hsnd [] (by decide)
    exact ⟨n, hn, g3 (by decide)⟩

theorem orderedFrom_iff (k : Nat) (l : List Chapter) :
    orderedFrom k l ↔
      ∀ i (h : i < l.length), (l.get ⟨i, h⟩).order = PyVal.int (k + i) := by
  induction l generalizing k with
  | nil => simp [orderedFrom]
  | cons c cs ih =>
    simp only [orderedFrom, ih (k + 1)]
    constructor
    · rintro ⟨h0, hrest⟩ i hi
      cases i with
      | zero => simpa using h0
      | succ j =>
        have hj : j < cs.length := by simpa using hi
        have h2 := hrest j hj
        have harith : ((k + 1 : Nat) : Int) + (j : Int)
            = (k : Int) + ((j + 1 : Nat) : Int) := by
          push_cast
          ring
        rw [harith] at h2
        exact h2
    · intro hall
      refine ⟨by simpa using hall 0 (by simp), fun i hi => ?_⟩
      have h2 := hall (i + 1) (by simpa using hi)
      have harith : (k : Int) + ((i + 1 : Nat) : Int)
          = ((k + 1 : Nat) : Int) + (i : Int) := by
        push_cast
        ring
      rw [harith] at h2
      exact h2

theorem chaptersOrdered_iff (l : List Chapter) :
    ChaptersOrdered l ↔ orderedFrom 0 l := by
  unfold ChaptersOrdered
  rw [orderedFrom_iff]
  simp

theorem orderedFrom_append (k : Nat) (l : List Chapter) (c : Chapter)
    (h : orderedFrom k l) (hc : c.order = PyVal.int (k + l.length)) :
    orderedFrom k (l ++ [c]) := by
  induction l generalizing k with
  | nil => simpa [orderedFrom] using hc
  | cons d ds ih =>
    obtain ⟨h0, h1⟩ := h
    refine ⟨h0, ih (k + 1) h1 ?_⟩
    rw [hc]
    congr 1
    simp
    omega

theorem renumberFrom_ordered (k : Nat) (l : List Chapter) :
    orderedFrom k (renumberFrom k l) := by
  induction l generalizing k with
  | nil => trivial
  | cons c cs ih => exact ⟨rfl, ih (k + 1)⟩

theorem removeAndRenumber_ordered (cid : String) (k : Nat)
    (l l' : List Chapter) (h : removeAndRenumber cid k l = some l')
    (ho : orderedFrom k l) : orderedFrom k l' := by
  induction l generalizing k l' with
  | nil => cases h
  | cons c cs ih =>
    unfold removeAndRenumber at h
    by_cases hc : c.id = PyVal.str cid
    · rw [if_pos hc] at h
      rw [← Option.some.inj h]
      exact renumberFrom_ordered k cs
    · rw [if_neg hc] at h
      cases hrec : removeAndRenumber cid (k + 1) cs with
      | none => rw [hrec] at h; cases h
      | some cs' =>
        rw [hrec] at h
        rw [← Option.some.inj h]
        exact ⟨ho.1, ih (k + 1) cs' hrec ho.2⟩

/-- C10: the invariant chapters[i].order = i is preserved by add_chapter
(which stamps order = current length) and by remove_chapter (which renumbers
the suffix after the deleted chapter). -/
theorem c10_chapter_order_invariant (now : Nat) (fresh : String)
    (wcount : String → Nat) (b : Book) (title content : String)
    (cid : String) (h : ChaptersOrdered b.chapters) :
    ChaptersOrdered ((Book.add_chapter now fresh wcount b title content).1).chapters ∧
    ChaptersOrdered ((Book.remove_chapter now b cid).1).chapters := by
  have h0 : orderedFrom 0 b.chapters := (chaptersOrdered_iff _).1 h
  constructor
  · rw [chaptersOrdered_iff]
    show orderedFrom 0 (b.chapters ++ [_])
    exact orderedFrom_append 0 b.chapters _ h0 (by simp)
  · unfold Book.remove_chapter
    cases hrem : removeAndRenumber cid 0 b.chapters with
    | none => exact h
    | some cs =>
      rw [chaptersOrdered_iff]
      exact removeAndRenumber_ordered cid 0 b.chapters cs hrem h0

/-- C10 witness: adding a chapter to, and removing the first chapter of, a
concrete ordered two-chapter book both preserve the invariant. -/
theorem c10_chapter_order_invariant_witness :
    ChaptersOrdered
      ((Book.add_chapter 3 "u" (fun _ => 0) c10Book "T3" "body").1).chapters ∧
    ChaptersOrdered ((Book.remove_chapter 3 c10Book "c0").1).chapters :=
  c10_chapter_order_invariant 3 "u" (fun _ => 0) c10Book "T3" "body" "c0"
    (by decide)

end BookWriter
